import Mathlib

/-!
Verification of the physics/collision core of the multiplayer voxel server
(`server.js`, `game/VoxelWorld.js`, `game/MovingVoxel.js` and the modular
server variant).  Each definition is a shallow embedding of the JavaScript
function named in its doc comment; JavaScript numbers are modelled as exact
rationals where the code only performs field operations and floors, and as
real numbers where the code takes square roots.  Randomness (`Math.random`)
is modelled as an explicit stream of draws.
-/

set_option maxHeartbeats 2000000
set_option maxRecDepth 100000

namespace VoxelGame

attribute [local semireducible] Rat.add Rat.mul Rat.sub Rat.inv Rat.ofScientific

/-! ## The voxel grid (`server.js` lines 650-684, `VoxelWorld.js`) -/

/-- The dense world storage `new Uint8Array(WORLD_SIZE³)`, as a total map from
flat index to stored byte.  Only indices produced by in-bounds coordinates are
ever read or written by the embedded accessors. -/
def World : Type := ℤ → ℕ

/-- Flat index `x + y * WORLD_SIZE + z * WORLD_SIZE * WORLD_SIZE` with
`WORLD_SIZE = 128`. -/
def worldIdx (x y z : ℤ) : ℤ := x + y * 128 + z * 128 * 128

/-- In-bounds predicate for a coordinate triple: `[0,128)³`. -/
def inB (x y z : ℤ) : Prop :=
  0 ≤ x ∧ x < 128 ∧ 0 ≤ y ∧ y < 128 ∧ 0 ≤ z ∧ z < 128

instance (x y z : ℤ) : Decidable (inB x y z) := by
  unfold inB; infer_instance

/-- Embeds `MultiplayerVoxelServer.getWorld` / `VoxelWorld.getWorld`: bounds-checked
read, out-of-bounds coordinates read as `0` (empty). -/
def getWorld (w : World) (x y z : ℤ) : ℕ :=
  if x < 0 ∨ 128 ≤ x ∨ y < 0 ∨ 128 ≤ y ∨ z < 0 ∨ 128 ≤ z then 0
  else w (worldIdx x y z)

/-- Embeds `MultiplayerVoxelServer.setWorld` / `VoxelWorld.setWorld`: bounds-checked
write.  The `Uint8Array` stores the value modulo 256; the returned flag is
`oldValue !== value` (comparing the previously stored byte with the argument
as passed). -/
def setWorld (w : World) (x y z : ℤ) (v : ℕ) : World × Bool :=
  if x < 0 ∨ 128 ≤ x ∨ y < 0 ∨ 128 ≤ y ∨ z < 0 ∨ 128 ≤ z then (w, false)
  else
    ((fun j => if j = worldIdx x y z then v % 256 else w j),
      decide (w (worldIdx x y z) ≠ v))

lemma oob_iff (x y z : ℤ) :
    (x < 0 ∨ 128 ≤ x ∨ y < 0 ∨ 128 ≤ y ∨ z < 0 ∨ 128 ≤ z) ↔ ¬ inB x y z := by
  unfold inB; omega

lemma worldIdx_inj {x y z x' y' z' : ℤ} (h : inB x y z) (h' : inB x' y' z')
    (he : worldIdx x y z = worldIdx x' y' z') : x = x' ∧ y = y' ∧ z = z' := by
  unfold inB at h h'
  unfold worldIdx at he
  omega

lemma getWorld_inB (w : World) {x y z : ℤ} (h : inB x y z) :
    getWorld w x y z = w (worldIdx x y z) := by
  unfold getWorld
  rw [if_neg]
  rw [oob_iff]
  exact not_not_intro h

/-- Writing one cell does not change the value read at any other coordinate
triple (in- or out-of-bounds). -/
lemma getWorld_setWorld_ne (w : World) {x y z a b c : ℤ} (v : ℕ)
    (hne : (x, y, z) ≠ (a, b, c)) :
    getWorld (setWorld w a b c v).1 x y z = getWorld w x y z := by
  unfold setWorld
  by_cases hb : a < 0 ∨ 128 ≤ a ∨ b < 0 ∨ 128 ≤ b ∨ c < 0 ∨ 128 ≤ c
  · rw [if_pos hb]
  · rw [if_neg hb]
    by_cases hx : x < 0 ∨ 128 ≤ x ∨ y < 0 ∨ 128 ≤ y ∨ z < 0 ∨ 128 ≤ z
    · unfold getWorld
      rw [if_pos hx, if_pos hx]
    · have hxin : inB x y z := by
        rw [oob_iff] at hx; exact not_not.mp hx
      have hain : inB a b c := by
        rw [oob_iff] at hb; exact not_not.mp hb
      unfold getWorld
      rw [if_neg hx, if_neg hx]
      simp only
      rw [if_neg]
      intro he
      rcases worldIdx_inj hxin hain he with ⟨h1, h2, h3⟩
      exact hne (by rw [h1, h2, h3])

/-- C1: out-of-bounds grid reads return 0 and out-of-bounds writes leave the
grid unchanged and return `false`; an in-bounds write of a byte value reports
`true` exactly when the stored value changes, stores the value at the target
cell, and changes no other cell. -/
theorem C1_grid_bounds (w : World) (x y z : ℤ) (v : ℕ) :
    (¬ inB x y z →
      getWorld w x y z = 0 ∧ (setWorld w x y z v).1 = w ∧
        (setWorld w x y z v).2 = false) ∧
    (inB x y z → v < 256 →
      ((setWorld w x y z v).2 = true ↔ getWorld w x y z ≠ v) ∧
      getWorld (setWorld w x y z v).1 x y z = v ∧
      (∀ x' y' z', (x', y', z') ≠ (x, y, z) →
        getWorld (setWorld w x y z v).1 x' y' z' = getWorld w x' y' z')) := by
  constructor
  · intro h
    have hc : x < 0 ∨ 128 ≤ x ∨ y < 0 ∨ 128 ≤ y ∨ z < 0 ∨ 128 ≤ z :=
      (oob_iff x y z).mpr h
    refine ⟨?_, ?_, ?_⟩
    · unfold getWorld; rw [if_pos hc]
    · unfold setWorld; rw [if_pos hc]
    · unfold setWorld; rw [if_pos hc]
  · intro h hv
    have hc : ¬ (x < 0 ∨ 128 ≤ x ∨ y < 0 ∨ 128 ≤ y ∨ z < 0 ∨ 128 ≤ z) := by
      rw [oob_iff]; exact not_not_intro h
    refine ⟨?_, ?_, ?_⟩
    · unfold setWorld
      rw [if_neg hc]
      simp only [decide_eq_true_eq]
      rw [getWorld_inB w h]
    · unfold setWorld
      rw [getWorld_inB _ h]
      rw [if_neg hc]
      simp only [if_pos rfl]
      exact Nat.mod_eq_of_lt hv
    · intro x' y' z' hne
      exact getWorld_setWorld_ne w v hne

/-- Witness for C1 at concrete inputs. -/
theorem C1_grid_bounds_witness :
    ((¬ inB (-1) 0 0) ∧ inB 2 3 4 ∧ (1 : ℕ) < 256) ∧
    (getWorld (fun _ => 0) (-1) 0 0 = 0 ∧
      (setWorld (fun _ => 0) (-1) 0 0 1).2 = false) ∧
    (((setWorld (fun _ => 0) 2 3 4 1).2 = true ↔
        getWorld (fun _ => 0) 2 3 4 ≠ 1) ∧
      getWorld (setWorld (fun _ => 0) 2 3 4 1).1 2 3 4 = 1) := by
  refine ⟨⟨by decide, by decide, by decide⟩, ⟨?_, ?_⟩, ⟨?_, ?_⟩⟩
  · exact ((C1_grid_bounds (fun _ => 0) (-1) 0 0 1).1 (by decide)).1
  · exact ((C1_grid_bounds (fun _ => 0) (-1) 0 0 1).1 (by decide)).2.2
  · exact ((C1_grid_bounds (fun _ => 0) 2 3 4 1).2 (by decide) (by decide)).1
  · exact ((C1_grid_bounds (fun _ => 0) 2 3 4 1).2 (by decide) (by decide)).2.1

/-! ## Height map rebuild (`server.js` `rebuildTerrain`,
`VoxelWorld.rebuildHeightMap`) -/

/-- The `Int32Array(WORLD_SIZE²)` height cache, flat index `x + z * 128`. -/
def Heights : Type := ℕ → ℕ

/-- Number of solid cells in column `(x, z)` — the inner `y` loop of the
rebuild (`if (this.getWorld(x, y, z)) h++`). -/
def columnCount (w : World) (x z : ℕ) : ℕ :=
  (List.range 128).countP (fun y => getWorld w (x : ℤ) (y : ℤ) (z : ℤ) != 0)

/-- A single write `heights[i] = v` into the flat height array. -/
def heightsWrite (h : Heights) (i v : ℕ) : Heights :=
  fun j => if j = i then v else h j

/-- The `(x, z)` iteration order of the rebuild's double loop. -/
def colPairs : List (ℕ × ℕ) :=
  (List.range 128).flatMap (fun x => (List.range 128).map (fun z => (x, z)))

/-- Embeds `MultiplayerVoxelServer.rebuildTerrain` / `VoxelWorld.rebuildHeightMap`:
full O(N³) recount of every column into the height array. -/
def rebuildTerrain (w : World) (h : Heights) : Heights :=
  colPairs.foldl
    (fun acc p => heightsWrite acc (p.1 + p.2 * 128) (columnCount w p.1 p.2)) h

lemma mem_colPairs {x z : ℕ} : (x, z) ∈ colPairs ↔ x < 128 ∧ z < 128 := by
  unfold colPairs
  simp [List.mem_flatMap, List.mem_map, List.mem_range]

lemma colIdx_inj {x z x' z' : ℕ} (hx : x < 128) (hx' : x' < 128)
    (h : x + z * 128 = x' + z' * 128) : x = x' ∧ z = z' := by omega

lemma foldl_heightsWrite_not_mem (w : World) (l : List (ℕ × ℕ)) (h : Heights)
    (i : ℕ) (hni : ∀ p ∈ l, p.1 + p.2 * 128 ≠ i) :
    (l.foldl
      (fun acc p => heightsWrite acc (p.1 + p.2 * 128) (columnCount w p.1 p.2))
      h) i = h i := by
  induction l generalizing h with
  | nil => rfl
  | cons a t ih =>
    simp only [List.foldl_cons]
    rw [ih _ (fun p hp => hni p (List.mem_cons_of_mem a hp))]
    unfold heightsWrite
    rw [if_neg (Ne.symm (hni a (List.mem_cons_self a t)))]

lemma foldl_heightsWrite_mem (w : World) (l : List (ℕ × ℕ)) (h : Heights)
    (x z : ℕ) (hmem : (x, z) ∈ l)
    (huni : ∀ p ∈ l, p.1 + p.2 * 128 = x + z * 128 → p = (x, z)) :
    (l.foldl
      (fun acc p => heightsWrite acc (p.1 + p.2 * 128) (columnCount w p.1 p.2))
      h) (x + z * 128) = columnCount w x z := by
  induction l generalizing h with
  | nil => cases hmem
  | cons a t ih =>
    simp only [List.foldl_cons]
    by_cases hat : (x, z) ∈ t
    · exact ih _ hat (fun p hp => huni p (List.mem_cons_of_mem a hp))
    · have hax : a = (x, z) := by
        cases List.mem_cons.mp hmem with
        | inl hh => exact hh.symm
        | inr hh => exact absurd hh hat
      subst hax
      rw [foldl_heightsWrite_not_mem]
      · unfold heightsWrite
        rw [if_pos rfl]
      · intro p hp he
        have := huni p (List.mem_cons_of_mem _ hp) he
        rw [this] at hp
        exact hat hp

/-- C2: immediately after the full height rebuild, the cached value at flat
index `x + z*128` equals the number of solid cells in column `(x, z)`. -/
theorem C2_height_invariant (w : World) (h : Heights) (x z : ℕ)
    (hx : x < 128) (hz : z < 128) :
    rebuildTerrain w h (x + z * 128) = columnCount w x z := by
  unfold rebuildTerrain
  apply foldl_heightsWrite_mem
  · exact mem_colPairs.mpr ⟨hx, hz⟩
  · intro p hp he
    rcases p with ⟨px, pz⟩
    rcases mem_colPairs.mp hp with ⟨hp1, hp2⟩
    simp only at he
    rcases colIdx_inj hp1 hx he with ⟨h1, h2⟩
    simp only [Prod.mk.injEq]
    exact ⟨h1, h2⟩

/-- Witness for C2 at a concrete column. -/
theorem C2_height_invariant_witness :
    (5 < 128 ∧ 7 < 128) ∧
    rebuildTerrain (fun _ => 0) (fun _ => 3) (5 + 7 * 128) =
      columnCount (fun _ => 0) 5 7 := by
  exact ⟨⟨by decide, by decide⟩,
    C2_height_invariant (fun _ => 0) (fun _ => 3) 5 7 (by decide) (by decide)⟩

/-! ## Swept collision against the grid (`MovingVoxel`, `server.js`
lines 40-82 and 204-253).  The arithmetic here is field operations and
floors only, so positions and velocities are modelled as exact rationals. -/

/-- A 3-component vector of rationals (a JS `[x, y, z]` array). -/
structure Q3 where
  x : ℚ
  y : ℚ
  z : ℚ
  deriving DecidableEq

attribute [ext] Q3

/-- Position reached at time `t` along velocity `v`
(`startPos[i] + this.vel[i] * t`). -/
def posAt (p v : Q3) (t : ℚ) : Q3 :=
  ⟨p.x + v.x * t, p.y + v.y * t, p.z + v.z * t⟩

lemma posAt_zero (p v : Q3) : posAt p v 0 = p := by
  unfold posAt
  ext <;> simp

/-- Embeds `MovingVoxel.isPositionValid`: the 15-point sample (8 corners, 6 face
midpoints, center) at half-extent `size = 0.45`; the position is valid when
no sampled cell is solid. -/
def isPositionValid (w : World) (p : Q3) : Bool :=
  let s : ℚ := 9/20
  ([(p.x - s, p.y - s, p.z - s), (p.x + s, p.y - s, p.z - s),
    (p.x - s, p.y + s, p.z - s), (p.x + s, p.y + s, p.z - s),
    (p.x - s, p.y - s, p.z + s), (p.x + s, p.y - s, p.z + s),
    (p.x - s, p.y + s, p.z + s), (p.x + s, p.y + s, p.z + s),
    (p.x, p.y, p.z - s), (p.x, p.y, p.z + s),
    (p.x, p.y - s, p.z), (p.x, p.y + s, p.z),
    (p.x - s, p.y, p.z), (p.x + s, p.y, p.z),
    (p.x, p.y, p.z)] : List (ℚ × ℚ × ℚ)).all
    (fun q => getWorld w ⌊q.1⌋ ⌊q.2.1⌋ ⌊q.2.2⌋ == 0)

/-- One iteration of `findCollisionTime`'s binary search on the state
`(minTime, maxTime, collisionTime)`. -/
def cSearchStep (w : World) (p v : Q3) (st : ℚ × ℚ × ℚ) : ℚ × ℚ × ℚ :=
  let t := (st.1 + st.2.1) / 2
  if isPositionValid w (posAt p v t) then (t, st.2.1, st.2.2)
  else (st.1, t, t)

/-- The binary search loop of `findCollisionTime`, run for `n` iterations. -/
def cSearchIter (w : World) (p v : Q3) : ℕ → ℚ × ℚ × ℚ → ℚ × ℚ × ℚ
  | 0, st => st
  | n + 1, st => cSearchIter w p v n (cSearchStep w p v st)

/-- Embeds `MovingVoxel.findCollisionTime`: `null` when the Euler end position is
valid, otherwise 20 binary-search iterations over `[0, dt]`. -/
def findCollisionTime (w : World) (p endP v : Q3) (dt : ℚ) : Option ℚ :=
  if isPositionValid w endP then none
  else some (cSearchIter w p v 20 (0, dt, dt)).2.2

/-- Gravity application at the top of `MovingVoxel.update`
(`this.vel[1] -= GRAVITY * dt`, `GRAVITY = 40`). -/
def gravApply (v : Q3) (dt : ℚ) : Q3 := ⟨v.x, v.y - 40 * dt, v.z⟩

/-- The naive Euler end position of one tick (the `endPos` of
`MovingVoxel.update`, computed with the post-gravity velocity). -/
def eulerEnd (p v : Q3) (dt : ℚ) : Q3 := posAt p (gravApply v dt) dt

/-- The position assignments of one `MovingVoxel.update` tick: gravity, swept
terrain collision with the `0.001` back-off, the floor snap at `y = size`,
and the X/Z world-boundary clamps (`server.js` lines 211-253).  Velocity-only
effects (bounce, destruction) do not move the body and are omitted. -/
def tickResolvedPos (w : World) (p v : Q3) (dt : ℚ) : Q3 :=
  let v1 := gravApply v dt
  let endP := posAt p v1 dt
  let p1 : Q3 :=
    match findCollisionTime w p endP v1 dt with
    | some ct => if 0 < ct then posAt p v1 (max 0 (ct - 1/1000)) else endP
    | none => endP
  let p2 : Q3 := if p1.y < 9/20 then ⟨p1.x, 9/20, p1.z⟩ else p1
  ⟨max (9/20) (min (128 - 9/20) p2.x), p2.y,
    max (9/20) (min (128 - 9/20) p2.z)⟩

lemma cSearchIter_fst_valid (w : World) (p v : Q3) :
    ∀ (n : ℕ) (st : ℚ × ℚ × ℚ),
      isPositionValid w (posAt p v st.1) = true →
      isPositionValid w (posAt p v (cSearchIter w p v n st).1) = true := by
  intro n
  induction n with
  | zero => intro st h; exact h
  | succ m ih =>
    intro st h
    show isPositionValid w
      (posAt p v (cSearchIter w p v m (cSearchStep w p v st)).1) = true
    apply ih
    unfold cSearchStep
    by_cases hmid : isPositionValid w (posAt p v ((st.1 + st.2.1) / 2)) = true
    · rw [if_pos hmid]
      exact hmid
    · rw [if_neg hmid]
      exact h

/-- C3 (amended): the binary search maintains a validated lower bound — if the
tick's start position is valid, so is the position at the search's final
`minTime`; and whenever the found collision time does not exceed the `0.001`
back-off, the resolved position of the tick is exactly the (valid) start
position.  The original claim fails when the body starts the tick inside
terrain (see the counterexample). -/
theorem C3_swept_lower_bound (w : World) (p v : Q3) (dt : ℚ)
    (hdt : 0 < dt) (hv : isPositionValid w p = true) :
    isPositionValid w
        (posAt p (gravApply v dt)
          (cSearchIter w p (gravApply v dt) 20 (0, dt, dt)).1) = true ∧
    (∀ o, findCollisionTime w p (eulerEnd p v dt) (gravApply v dt) dt = o →
      o.isSome = true → 0 < o.getD 0 → o.getD 0 ≤ 1/1000 →
      9/20 ≤ p.y → 9/20 ≤ p.x → p.x ≤ 128 - 9/20 →
      9/20 ≤ p.z → p.z ≤ 128 - 9/20 →
      tickResolvedPos w p v dt = p) := by
  constructor
  · apply cSearchIter_fst_valid
    show isPositionValid w (posAt p (gravApply v dt) 0) = true
    rw [posAt_zero]
    exact hv
  · intro o ho hsome h0 h1 hy hx1 hx2 hz1 hz2
    cases o with
    | none => simp at hsome
    | some ct =>
      simp only [Option.getD_some] at h0 h1
      simp only [tickResolvedPos]
      unfold eulerEnd at ho
      rw [ho]
      simp only
      rw [if_pos h0]
      have hm : max (0 : ℚ) (ct - 1/1000) = 0 := by
        apply max_eq_left
        linarith
      rw [hm, posAt_zero]
      rw [if_neg (not_lt.mpr hy)]
      ext
      · show max (9/20) (min (128 - 9/20) p.x) = p.x
        rw [min_eq_right hx2, max_eq_right hx1]
      · rfl
      · show max (9/20) (min (128 - 9/20) p.z) = p.z
        rw [min_eq_right hz2, max_eq_right hz1]

/-- The all-solid world: every in-bounds cell is solid. -/
def wAllSolid : World := fun _ => 1

/-- Counterexample to C3 as stated: a slow body (`speed·dt < 2·size`) whose
tick both starts and ends inside solid terrain.  The Euler end position fails
the validity test, yet the resolved position of the tick (the start position,
reached because the backed-off collision time is clamped to 0) also fails it:
the swept resolution leaves the body inside solid terrain. -/
theorem C3_swept_counterexample :
    (0 : ℚ) < 1/50 ∧
    (((0 : ℚ)^2 + 0^2 + 0^2) * (1/50)^2 < (9/10)^2) ∧
    isPositionValid wAllSolid (eulerEnd ⟨64, 64, 64⟩ ⟨0, 0, 0⟩ (1/50)) = false ∧
    isPositionValid wAllSolid
      (tickResolvedPos wAllSolid ⟨64, 64, 64⟩ ⟨0, 0, 0⟩ (1/50)) = false := by
  refine ⟨by norm_num, by norm_num, by decide, by decide⟩

/-- A one-cell-thick solid floor at `y = 0`. -/
def wSlabC3 : World := fun i => if 0 ≤ i ∧ i % 16384 < 128 then 1 else 0

/-- Concrete start position just above the floor for the C3 witness. -/
def pC3 : Q3 := ⟨64, 14501/10000, 64⟩

/-- Witness for C3 (amended) at a concrete slab scenario where the collision
time found is below the back-off. -/
theorem C3_swept_lower_bound_witness :
    ((0 : ℚ) < 1/50 ∧ isPositionValid wSlabC3 pC3 = true ∧
      (findCollisionTime wSlabC3 pC3 (eulerEnd pC3 ⟨0, 0, 0⟩ (1/50))
        (gravApply ⟨0, 0, 0⟩ (1/50)) (1/50)).isSome = true ∧
      0 < (findCollisionTime wSlabC3 pC3 (eulerEnd pC3 ⟨0, 0, 0⟩ (1/50))
        (gravApply ⟨0, 0, 0⟩ (1/50)) (1/50)).getD 0 ∧
      (findCollisionTime wSlabC3 pC3 (eulerEnd pC3 ⟨0, 0, 0⟩ (1/50))
        (gravApply ⟨0, 0, 0⟩ (1/50)) (1/50)).getD 0 ≤ 1/1000) ∧
    (isPositionValid wSlabC3
        (posAt pC3 (gravApply ⟨0, 0, 0⟩ (1/50))
          (cSearchIter wSlabC3 pC3 (gravApply ⟨0, 0, 0⟩ (1/50)) 20
            (0, 1/50, 1/50)).1) = true ∧
      tickResolvedPos wSlabC3 pC3 ⟨0, 0, 0⟩ (1/50) = pC3) := by
  refine ⟨⟨by norm_num, by decide, by decide, by decide, by decide⟩, ?_, ?_⟩
  · exact (C3_swept_lower_bound wSlabC3 pC3 ⟨0, 0, 0⟩ (1/50)
      (by norm_num) (by decide)).1
  · exact (C3_swept_lower_bound wSlabC3 pC3 ⟨0, 0, 0⟩ (1/50)
      (by norm_num) (by decide)).2 _ rfl (by decide) (by decide) (by decide)
      (by decide) (by decide) (by decide) (by decide) (by decide)

/-! ## Settling (`MovingVoxel.settleToGrid` and
`MovingVoxel.findClosestEmptyPosition`, `server.js` lines 383-429) -/

/-- JavaScript `Math.round` (half-up, ties toward positive infinity). -/
def roundJS (q : ℚ) : ℤ := ⌊q + 1/2⌋

/-- The loop range `[-r, r]` of the shell search. -/
def rangeZ (r : ℕ) : List ℤ :=
  (List.range (2 * r + 1)).map (fun i : ℕ => (i : ℤ) - (r : ℤ))

/-- Squared Euclidean distance of a candidate cell from the target cell.  The
source sorts candidates by `Math.sqrt` of this quantity; sorting by the square
orders identically. -/
def dSq (tx ty tz : ℤ) (c : ℤ × ℤ × ℤ) : ℤ :=
  (c.1 - tx)^2 + (c.2.1 - ty)^2 + (c.2.2 - tz)^2

/-- The candidate list collected for one shell `radius = r` of
`findClosestEmptyPosition`: positions on the Chebyshev shell that are
in-bounds and empty, in `dx`/`dy`/`dz` iteration order. -/
def shellCandidates (w : World) (tx ty tz : ℤ) (r : ℕ) : List (ℤ × ℤ × ℤ) :=
  (rangeZ r).flatMap fun dx =>
    (rangeZ r).flatMap fun dy =>
      (rangeZ r).filterMap fun dz =>
        if (dx.natAbs = r ∨ dy.natAbs = r ∨ dz.natAbs = r) ∧
            inB (tx + dx) (ty + dy) (tz + dz) ∧
            getWorld w (tx + dx) (ty + dy) (tz + dz) = 0
        then some (tx + dx, ty + dy, tz + dz) else none

/-- One shell of the search: sort the shell's candidates by distance and take
the first (the `candidates.sort(...)[0]` of the source). -/
def shellBest (w : World) (tx ty tz : ℤ) (r : ℕ) : Option (ℤ × ℤ × ℤ) :=
  match (shellCandidates w tx ty tz r).mergeSort
      (fun a b => decide (dSq tx ty tz a ≤ dSq tx ty tz b)) with
  | [] => none
  | c :: _ => some c

/-- Embeds `MovingVoxel.findClosestEmptyPosition` with `maxRadius = 4`: the target
cell first, then expanding shells of radius 1..4. -/
def findClosestEmptyPosition (w : World) (tx ty tz : ℤ) : Option (ℤ × ℤ × ℤ) :=
  if inB tx ty tz ∧ getWorld w tx ty tz = 0 then some (tx, ty, tz)
  else
    match shellBest w tx ty tz 1 with
    | some c => some c
    | none =>
      match shellBest w tx ty tz 2 with
      | some c => some c
      | none =>
        match shellBest w tx ty tz 3 with
        | some c => some c
        | none => shellBest w tx ty tz 4

/-- Embeds `MovingVoxel.settleToGrid`: round the position to a lattice cell, search
for the closest empty cell, and either write it solid (body settles, returns
`'settled'`, here `true`) or leave the grid unchanged (body keeps moving,
`'continue'`, here `false`). -/
def settleToGrid (w : World) (p : Q3) : World × Bool :=
  match findClosestEmptyPosition w (roundJS (p.x - 1/2)) (roundJS (p.y - 1/2))
      (roundJS (p.z - 1/2)) with
  | some c => ((setWorld w c.1 c.2.1 c.2.2 1).1, true)
  | none => (w, false)

lemma getWorld_setWorld_self (w : World) {a b c : ℤ} (v : ℕ) (h : inB a b c) :
    getWorld (setWorld w a b c v).1 a b c = v % 256 := by
  have hc : ¬ (a < 0 ∨ 128 ≤ a ∨ b < 0 ∨ 128 ≤ b ∨ c < 0 ∨ 128 ≤ c) := by
    rw [oob_iff]; exact not_not_intro h
  unfold setWorld
  rw [if_neg hc]
  rw [getWorld_inB _ h]
  simp

lemma mem_rangeZ {r : ℕ} {d : ℤ} : d ∈ rangeZ r ↔ d.natAbs ≤ r := by
  unfold rangeZ
  simp only [List.mem_map, List.mem_range]
  constructor
  · rintro ⟨i, hi, rfl⟩
    omega
  · intro hd
    exact ⟨(d + r).toNat, by omega, by omega⟩

lemma mem_shellCandidates {w : World} {tx ty tz : ℤ} {r : ℕ} {c : ℤ × ℤ × ℤ} :
    c ∈ shellCandidates w tx ty tz r ↔
      (c.1 - tx).natAbs ≤ r ∧ (c.2.1 - ty).natAbs ≤ r ∧ (c.2.2 - tz).natAbs ≤ r ∧
      ((c.1 - tx).natAbs = r ∨ (c.2.1 - ty).natAbs = r ∨ (c.2.2 - tz).natAbs = r) ∧
      inB c.1 c.2.1 c.2.2 ∧ getWorld w c.1 c.2.1 c.2.2 = 0 := by
  unfold shellCandidates
  simp only [List.mem_flatMap, List.mem_filterMap, Option.ite_none_right_eq_some,
    Option.some.injEq, mem_rangeZ]
  constructor
  · rintro ⟨dx, hdx, dy, hdy, dz, hdz, ⟨hshell, hb, he⟩, rfl⟩
    simp only [add_sub_cancel_left]
    exact ⟨hdx, hdy, hdz, hshell, hb, he⟩
  · rintro ⟨h1, h2, h3, hshell, hb, he⟩
    refine ⟨c.1 - tx, h1, c.2.1 - ty, h2, c.2.2 - tz, h3, ⟨hshell, ?_, ?_⟩, ?_⟩
    · simpa using hb
    · simpa using he
    · simp

lemma mergeSort_head_min {α : Type} (le : α → α → Bool)
    (htrans : ∀ a b c, le a b = true → le b c = true → le a c = true)
    (htotal : ∀ a b, (le a b || le b a) = true)
    {l rest : List α} {c : α} (h : l.mergeSort le = c :: rest) :
    c ∈ l ∧ ∀ x ∈ l, le c x = true := by
  have hperm := List.mergeSort_perm l le
  have hsorted := List.sorted_mergeSort htrans htotal l
  rw [h] at hperm hsorted
  constructor
  · exact hperm.mem_iff.mp (List.mem_cons_self c rest)
  · intro x hx
    cases List.mem_cons.mp (hperm.mem_iff.mpr hx) with
    | inl he =>
      subst he
      have := htotal x x
      cases hxx : le x x with
      | true => rfl
      | false => rw [hxx] at this; simp at this
    | inr hr =>
      exact (List.pairwise_cons.mp hsorted).1 x hr

lemma shellBest_none {w : World} {tx ty tz : ℤ} {r : ℕ} :
    shellBest w tx ty tz r = none ↔ shellCandidates w tx ty tz r = [] := by
  unfold shellBest
  cases hms : (shellCandidates w tx ty tz r).mergeSort
      (fun a b => decide (dSq tx ty tz a ≤ dSq tx ty tz b)) with
  | nil =>
    simp only []
    have : (shellCandidates w tx ty tz r).length = 0 := by
      rw [← @List.length_mergeSort _
        (fun a b => decide (dSq tx ty tz a ≤ dSq tx ty tz b))
        (shellCandidates w tx ty tz r), hms]
      rfl
    simp [List.length_eq_zero.mp this]
  | cons c cs =>
    simp only []
    constructor
    · intro hc; cases hc
    · intro hnil
      rw [hnil] at hms
      simp [List.mergeSort] at hms

lemma shellBest_some {w : World} {tx ty tz : ℤ} {r : ℕ} {c : ℤ × ℤ × ℤ}
    (h : shellBest w tx ty tz r = some c) :
    c ∈ shellCandidates w tx ty tz r ∧
      ∀ c' ∈ shellCandidates w tx ty tz r, dSq tx ty tz c ≤ dSq tx ty tz c' := by
  unfold shellBest at h
  cases hms : (shellCandidates w tx ty tz r).mergeSort
      (fun a b => decide (dSq tx ty tz a ≤ dSq tx ty tz b)) with
  | nil => rw [hms] at h; cases h
  | cons b bs =>
    rw [hms] at h
    simp only [Option.some.injEq] at h
    subst h
    have := mergeSort_head_min
      (fun a b => decide (dSq tx ty tz a ≤ dSq tx ty tz b))
      (by intro a b c hab hbc
          simp only [decide_eq_true_eq] at *
          exact le_trans hab hbc)
      (by intro a b
          simp only [Bool.or_eq_true, decide_eq_true_eq]
          exact le_total _ _)
      hms
    exact ⟨this.1, fun c' hc' => by
      have := this.2 c' hc'
      simpa using this⟩

/-- C7: when a settling body finds an empty in-bounds cell (the rounded target
first, otherwise the nearest empty candidate of the first non-empty shell of
radius 1..4), exactly that previously-empty cell is written solid and the body
settles; when no empty cell exists within radius 4, the grid is untouched and
the body stays in the moving set. -/
theorem C7_settle (w : World) (p : Q3) (tx ty tz : ℤ)
    (htx : tx = roundJS (p.x - 1/2)) (hty : ty = roundJS (p.y - 1/2))
    (htz : tz = roundJS (p.z - 1/2)) :
    (∀ c, findClosestEmptyPosition w tx ty tz = some c →
      inB c.1 c.2.1 c.2.2 ∧ getWorld w c.1 c.2.1 c.2.2 = 0 ∧
      settleToGrid w p = ((setWorld w c.1 c.2.1 c.2.2 1).1, true) ∧
      getWorld (settleToGrid w p).1 c.1 c.2.1 c.2.2 = 1 ∧
      (∀ x y z, (x, y, z) ≠ (c.1, c.2.1, c.2.2) →
        getWorld (settleToGrid w p).1 x y z = getWorld w x y z) ∧
      (inB tx ty tz ∧ getWorld w tx ty tz = 0 → c = (tx, ty, tz)) ∧
      (¬ (inB tx ty tz ∧ getWorld w tx ty tz = 0) →
        ∃ r, 1 ≤ r ∧ r ≤ 4 ∧ c ∈ shellCandidates w tx ty tz r ∧
          (∀ r', 1 ≤ r' → r' < r → shellCandidates w tx ty tz r' = []) ∧
          (∀ c' ∈ shellCandidates w tx ty tz r,
            dSq tx ty tz c ≤ dSq tx ty tz c'))) ∧
    (findClosestEmptyPosition w tx ty tz = none →
      settleToGrid w p = (w, false) ∧
      (∀ dx dy dz : ℤ, dx.natAbs ≤ 4 → dy.natAbs ≤ 4 → dz.natAbs ≤ 4 →
        inB (tx + dx) (ty + dy) (tz + dz) →
        getWorld w (tx + dx) (ty + dy) (tz + dz) ≠ 0)) := by
  subst htx hty htz
  have hset : ∀ c, findClosestEmptyPosition w (roundJS (p.x - 1/2))
      (roundJS (p.y - 1/2)) (roundJS (p.z - 1/2)) = some c →
      settleToGrid w p = ((setWorld w c.1 c.2.1 c.2.2 1).1, true) := by
    intro c hc
    unfold settleToGrid
    rw [hc]
  have hinfo : ∀ c, findClosestEmptyPosition w (roundJS (p.x - 1/2))
      (roundJS (p.y - 1/2)) (roundJS (p.z - 1/2)) = some c →
      (inB c.1 c.2.1 c.2.2 ∧ getWorld w c.1 c.2.1 c.2.2 = 0) ∧
      ((inB (roundJS (p.x - 1/2)) (roundJS (p.y - 1/2)) (roundJS (p.z - 1/2)) ∧
          getWorld w (roundJS (p.x - 1/2)) (roundJS (p.y - 1/2))
            (roundJS (p.z - 1/2)) = 0 →
        c = (roundJS (p.x - 1/2), roundJS (p.y - 1/2), roundJS (p.z - 1/2))) ∧
      (¬ (inB (roundJS (p.x - 1/2)) (roundJS (p.y - 1/2)) (roundJS (p.z - 1/2)) ∧
          getWorld w (roundJS (p.x - 1/2)) (roundJS (p.y - 1/2))
            (roundJS (p.z - 1/2)) = 0) →
        ∃ r, 1 ≤ r ∧ r ≤ 4 ∧
          c ∈ shellCandidates w (roundJS (p.x - 1/2)) (roundJS (p.y - 1/2))
            (roundJS (p.z - 1/2)) r ∧
          (∀ r', 1 ≤ r' → r' < r →
            shellCandidates w (roundJS (p.x - 1/2)) (roundJS (p.y - 1/2))
              (roundJS (p.z - 1/2)) r' = []) ∧
          (∀ c' ∈ shellCandidates w (roundJS (p.x - 1/2)) (roundJS (p.y - 1/2))
              (roundJS (p.z - 1/2)) r,
            dSq (roundJS (p.x - 1/2)) (roundJS (p.y - 1/2))
              (roundJS (p.z - 1/2)) c ≤
            dSq (roundJS (p.x - 1/2)) (roundJS (p.y - 1/2))
              (roundJS (p.z - 1/2)) c'))) := by
    intro c hc
    set tx := roundJS (p.x - 1/2)
    set ty := roundJS (p.y - 1/2)
    set tz := roundJS (p.z - 1/2)
    unfold findClosestEmptyPosition at hc
    by_cases htgt : inB tx ty tz ∧ getWorld w tx ty tz = 0
    · rw [if_pos htgt] at hc
      simp only [Option.some.injEq] at hc
      subst hc
      exact ⟨htgt, fun _ => rfl, fun hn => absurd htgt hn⟩
    · rw [if_neg htgt] at hc
      have shellCase : ∀ (r : ℕ), shellBest w tx ty tz r = some c →
          (∀ r', 1 ≤ r' → r' < r → shellCandidates w tx ty tz r' = []) →
          1 ≤ r → r ≤ 4 →
          (inB c.1 c.2.1 c.2.2 ∧ getWorld w c.1 c.2.1 c.2.2 = 0) ∧
          ((inB tx ty tz ∧ getWorld w tx ty tz = 0 → c = (tx, ty, tz)) ∧
          (¬ (inB tx ty tz ∧ getWorld w tx ty tz = 0) →
            ∃ rr, 1 ≤ rr ∧ rr ≤ 4 ∧ c ∈ shellCandidates w tx ty tz rr ∧
              (∀ r', 1 ≤ r' → r' < rr → shellCandidates w tx ty tz r' = []) ∧
              (∀ c' ∈ shellCandidates w tx ty tz rr,
                dSq tx ty tz c ≤ dSq tx ty tz c'))) := by
        intro r hr hprev h1 h4
        rcases shellBest_some hr with ⟨hmem, hmin⟩
        rcases mem_shellCandidates.mp hmem with ⟨_, _, _, _, hb, he⟩
        exact ⟨⟨hb, he⟩, fun h => absurd h htgt,
          fun _ => ⟨r, h1, h4, hmem, hprev, hmin⟩⟩
      cases h1 : shellBest w tx ty tz 1 with
      | some c1 =>
        rw [h1] at hc
        simp only [Option.some.injEq] at hc
        subst hc
        exact shellCase 1 h1 (by omega) (by omega) (by omega)
      | none =>
        rw [h1] at hc
        cases h2 : shellBest w tx ty tz 2 with
        | some c2 =>
          rw [h2] at hc
          simp only [Option.some.injEq] at hc
          subst hc
          refine shellCase 2 h2 ?_ (by omega) (by omega)
          intro r' hr1 hr2
          have : r' = 1 := by omega
          subst this
          exact shellBest_none.mp h1
        | none =>
          rw [h2] at hc
          cases h3 : shellBest w tx ty tz 3 with
          | some c3 =>
            rw [h3] at hc
            simp only [Option.some.injEq] at hc
            subst hc
            refine shellCase 3 h3 ?_ (by omega) (by omega)
            intro r' hr1 hr2
            interval_cases r'
            · exact shellBest_none.mp h1
            · exact shellBest_none.mp h2
          | none =>
            rw [h3] at hc
            refine shellCase 4 hc ?_ (by omega) (by omega)
            intro r' hr1 hr2
            interval_cases r'
            · exact shellBest_none.mp h1
            · exact shellBest_none.mp h2
            · exact shellBest_none.mp h3
  constructor
  · intro c hc
    rcases hinfo c hc with ⟨⟨hb, he⟩, htgtc, hshellc⟩
    have hst := hset c hc
    refine ⟨hb, he, hst, ?_, ?_, htgtc, hshellc⟩
    · rw [hst]
      simp only
      rw [getWorld_setWorld_self w 1 hb]
    · intro x y z hne
      rw [hst]
      simp only
      exact getWorld_setWorld_ne w 1 hne
  · intro hn
    set tx := roundJS (p.x - 1/2)
    set ty := roundJS (p.y - 1/2)
    set tz := roundJS (p.z - 1/2)
    have hall : ¬ (inB tx ty tz ∧ getWorld w tx ty tz = 0) ∧
        ∀ r : ℕ, 1 ≤ r → r ≤ 4 → shellCandidates w tx ty tz r = [] := by
      unfold findClosestEmptyPosition at hn
      by_cases htgt : inB tx ty tz ∧ getWorld w tx ty tz = 0
      · rw [if_pos htgt] at hn; cases hn
      · rw [if_neg htgt] at hn
        cases h1 : shellBest w tx ty tz 1 with
        | some c1 => rw [h1] at hn; cases hn
        | none =>
          rw [h1] at hn
          cases h2 : shellBest w tx ty tz 2 with
          | some c2 => rw [h2] at hn; cases hn
          | none =>
            rw [h2] at hn
            cases h3 : shellBest w tx ty tz 3 with
            | some c3 => rw [h3] at hn; cases hn
            | none =>
              rw [h3] at hn
              refine ⟨htgt, ?_⟩
              intro r hr1 hr4
              interval_cases r
              · exact shellBest_none.mp h1
              · exact shellBest_none.mp h2
              · exact shellBest_none.mp h3
              · exact shellBest_none.mp hn
    constructor
    · unfold settleToGrid
      rw [hn]
    · intro dx dy dz hdx hdy hdz hbnd hemp
      by_cases hzero : dx = 0 ∧ dy = 0 ∧ dz = 0
      · rcases hzero with ⟨rfl, rfl, rfl⟩
        simp only [add_zero] at hbnd hemp
        exact hall.1 ⟨hbnd, hemp⟩
      · set r : ℕ := max dx.natAbs (max dy.natAbs dz.natAbs) with hrdef
        have hr1 : 1 ≤ r := by
          rcases Decidable.not_and_iff_or_not.mp hzero with h | h
          · have := Int.natAbs_pos.mpr h; omega
          · rcases Decidable.not_and_iff_or_not.mp h with h' | h'
            · have := Int.natAbs_pos.mpr h'; omega
            · have := Int.natAbs_pos.mpr h'; omega
        have hr4 : r ≤ 4 := by omega
        have hmem : (tx + dx, ty + dy, tz + dz) ∈
            shellCandidates w tx ty tz r := by
          apply mem_shellCandidates.mpr
          simp only [add_sub_cancel_left]
          refine ⟨by omega, by omega, by omega, by omega, hbnd, hemp⟩
        rw [hall.2 r hr1 hr4] at hmem
        cases hmem

/-- World with a single solid cell, used in the C7 witness. -/
def wEmpty : World := fun _ => 0

/-- Witness for C7 at a concrete settling body over an empty world. -/
theorem C7_settle_witness :
    ((20 : ℤ) = roundJS ((41/2 : ℚ) - 1/2) ∧
      (30 : ℤ) = roundJS ((61/2 : ℚ) - 1/2) ∧
      (40 : ℤ) = roundJS ((81/2 : ℚ) - 1/2) ∧
      findClosestEmptyPosition wEmpty 20 30 40 = some (20, 30, 40)) ∧
    (inB (20 : ℤ) 30 40 ∧ getWorld wEmpty 20 30 40 = 0 ∧
      settleToGrid wEmpty ⟨41/2, 61/2, 81/2⟩ =
        ((setWorld wEmpty 20 30 40 1).1, true) ∧
      getWorld (settleToGrid wEmpty ⟨41/2, 61/2, 81/2⟩).1 20 30 40 = 1) := by
  have h := (C7_settle wEmpty ⟨41/2, 61/2, 81/2⟩ 20 30 40
    (by decide) (by decide) (by decide)).1 (20, 30, 40) (by decide)
  exact ⟨⟨by decide, by decide, by decide, by decide⟩,
    h.1, h.2.1, h.2.2.1, h.2.2.2.1⟩

/-! ## Real-valued physics.  The routines below take square roots
(`Math.sqrt`), so they are embedded over the real numbers. -/

/-- A 3-component vector of reals (a JS `[x, y, z]` array). -/
structure R3 where
  x : ℝ
  y : ℝ
  z : ℝ

attribute [ext] R3

/-- Squared Euclidean norm. -/
noncomputable def nsq (a : R3) : ℝ := a.x^2 + a.y^2 + a.z^2

/-- Euclidean distance between two points
(`Math.sqrt(dx*dx + dy*dy + dz*dz)`). -/
noncomputable def distR (a b : R3) : ℝ :=
  Real.sqrt ((a.x - b.x)^2 + (a.y - b.y)^2 + (a.z - b.z)^2)

/-! ## Voxel-voxel collision response (`MovingVoxel.handleVoxelCollision`,
`server.js` lines 130-166 and `game/MovingVoxel.js` lines 158-202 — the two
copies are identical). -/

/-- State of one free body entering the pairwise collision routine. -/
structure BodyV where
  pos : R3
  vel : R3
  size : ℝ

/-- Embeds `MovingVoxel.handleVoxelCollision`: symmetric 51% separation push along
the collision normal, then an equal-and-opposite impulse with restitution 0.6
unless the bodies are already separating; a no-op below the 0.001 distance
guard. -/
noncomputable def handleVoxelCollision (a b : BodyV) : BodyV × BodyV :=
  let dx := a.pos.x - b.pos.x
  let dy := a.pos.y - b.pos.y
  let dz := a.pos.z - b.pos.z
  let distance := Real.sqrt (dx^2 + dy^2 + dz^2)
  if distance < 1/1000 then (a, b)
  else
    let nx := dx / distance
    let ny := dy / distance
    let nz := dz / distance
    let overlap := (a.size + b.size) * 2 - distance
    let separation := overlap * (51/100)
    let aPos : R3 := ⟨a.pos.x + nx * separation, a.pos.y + ny * separation,
      a.pos.z + nz * separation⟩
    let bPos : R3 := ⟨b.pos.x - nx * separation, b.pos.y - ny * separation,
      b.pos.z - nz * separation⟩
    let relVelX := a.vel.x - b.vel.x
    let relVelY := a.vel.y - b.vel.y
    let relVelZ := a.vel.z - b.vel.z
    let velAlongNormal := relVelX * nx + relVelY * ny + relVelZ * nz
    if 0 < velAlongNormal then (⟨aPos, a.vel, a.size⟩, ⟨bPos, b.vel, b.size⟩)
    else
      let impulseScalar := -(1 + 3/5) * velAlongNormal / 2
      (⟨aPos, ⟨a.vel.x + impulseScalar * nx, a.vel.y + impulseScalar * ny,
          a.vel.z + impulseScalar * nz⟩, a.size⟩,
        ⟨bPos, ⟨b.vel.x - impulseScalar * nx, b.vel.y - impulseScalar * ny,
          b.vel.z - impulseScalar * nz⟩, b.size⟩)

/-- C10: for bodies at distance at least 0.001, the pairwise collision
response conserves the vector sum of the two velocities (the impulse is equal
and opposite) and the sum of the two positions (the separation push is
symmetric). -/
theorem C10_momentum_conservation (a b : BodyV)
    (h : 1/1000 ≤ Real.sqrt ((a.pos.x - b.pos.x)^2 + (a.pos.y - b.pos.y)^2 +
      (a.pos.z - b.pos.z)^2)) :
    ((handleVoxelCollision a b).1.vel.x + (handleVoxelCollision a b).2.vel.x =
        a.vel.x + b.vel.x ∧
      (handleVoxelCollision a b).1.vel.y + (handleVoxelCollision a b).2.vel.y =
        a.vel.y + b.vel.y ∧
      (handleVoxelCollision a b).1.vel.z + (handleVoxelCollision a b).2.vel.z =
        a.vel.z + b.vel.z) ∧
    ((handleVoxelCollision a b).1.pos.x + (handleVoxelCollision a b).2.pos.x =
        a.pos.x + b.pos.x ∧
      (handleVoxelCollision a b).1.pos.y + (handleVoxelCollision a b).2.pos.y =
        a.pos.y + b.pos.y ∧
      (handleVoxelCollision a b).1.pos.z + (handleVoxelCollision a b).2.pos.z =
        a.pos.z + b.pos.z) := by
  unfold handleVoxelCollision
  rw [if_neg (not_lt.mpr h)]
  by_cases hsep : 0 < (a.vel.x - b.vel.x) *
      ((a.pos.x - b.pos.x) / Real.sqrt ((a.pos.x - b.pos.x)^2 +
        (a.pos.y - b.pos.y)^2 + (a.pos.z - b.pos.z)^2)) +
      (a.vel.y - b.vel.y) *
      ((a.pos.y - b.pos.y) / Real.sqrt ((a.pos.x - b.pos.x)^2 +
        (a.pos.y - b.pos.y)^2 + (a.pos.z - b.pos.z)^2)) +
      (a.vel.z - b.vel.z) *
      ((a.pos.z - b.pos.z) / Real.sqrt ((a.pos.x - b.pos.x)^2 +
        (a.pos.y - b.pos.y)^2 + (a.pos.z - b.pos.z)^2))
  · rw [if_pos hsep]
    refine ⟨⟨by ring, by ring, by ring⟩, by ring, by ring, by ring⟩
  · rw [if_neg hsep]
    refine ⟨⟨by ring, by ring, by ring⟩, by ring, by ring, by ring⟩

/-- Witness for C10 at a concrete pair of touching bodies. -/
theorem C10_momentum_conservation_witness :
    ((1 : ℝ)/1000 ≤ Real.sqrt ((((⟨⟨1, 0, 0⟩, ⟨0, 0, 0⟩, 9/20⟩ : BodyV)).pos.x -
        ((⟨⟨0, 0, 0⟩, ⟨0, 0, 0⟩, 9/20⟩ : BodyV)).pos.x)^2 +
      (((⟨⟨1, 0, 0⟩, ⟨0, 0, 0⟩, 9/20⟩ : BodyV)).pos.y -
        ((⟨⟨0, 0, 0⟩, ⟨0, 0, 0⟩, 9/20⟩ : BodyV)).pos.y)^2 +
      (((⟨⟨1, 0, 0⟩, ⟨0, 0, 0⟩, 9/20⟩ : BodyV)).pos.z -
        ((⟨⟨0, 0, 0⟩, ⟨0, 0, 0⟩, 9/20⟩ : BodyV)).pos.z)^2)) ∧
    (handleVoxelCollision ⟨⟨1, 0, 0⟩, ⟨0, 0, 0⟩, 9/20⟩
        ⟨⟨0, 0, 0⟩, ⟨0, 0, 0⟩, 9/20⟩).1.vel.x +
      (handleVoxelCollision ⟨⟨1, 0, 0⟩, ⟨0, 0, 0⟩, 9/20⟩
        ⟨⟨0, 0, 0⟩, ⟨0, 0, 0⟩, 9/20⟩).2.vel.x = 0 + 0 := by
  have hd : ((1 : ℝ) - 0)^2 + ((0:ℝ) - 0)^2 + ((0:ℝ) - 0)^2 = 1 := by norm_num
  have hsq : Real.sqrt (((1:ℝ) - 0)^2 + ((0:ℝ) - 0)^2 + ((0:ℝ) - 0)^2) = 1 := by
    rw [hd, Real.sqrt_one]
  constructor
  · simp only
    rw [hsq]
    norm_num
  · exact (C10_momentum_conservation ⟨⟨1, 0, 0⟩, ⟨0, 0, 0⟩, 9/20⟩
      ⟨⟨0, 0, 0⟩, ⟨0, 0, 0⟩, 9/20⟩ (by simp only; rw [hsq]; norm_num)).1.1

/-! ## Center-of-mass recomputation (`Player.updatePhysics`).  The monolithic
`server.js` (line 494) snaps `centerPos` to the exact mean of the remaining
cells; the modular server (`part_000` lines 100-142) caps the shift at 2.0
units per tick. -/

/-- Embeds `Player.getCenterPosition`: mean of the body-cell positions, falling back
to the stored center when no cells remain. -/
noncomputable def getCenterPosition (cells : List R3) (fallback : R3) : R3 :=
  if cells.length = 0 then fallback
  else ⟨(cells.map R3.x).sum / cells.length, (cells.map R3.y).sum / cells.length,
    (cells.map R3.z).sum / cells.length⟩

/-- The center recompute of `Player.updatePhysics` in the monolithic
`server.js`: `this.centerPos = this.getCenterPosition()` — a direct snap. -/
noncomputable def serverCenterStep (center : R3) (cells : List R3) : R3 :=
  getCenterPosition cells center

/-- The center recompute of `Player.updatePhysics` in the modular server
(`part_000`): the shift toward the new mean is capped at 2.0 units per
frame. -/
noncomputable def smoothCenterStep (center : R3) (cells : List R3) : R3 :=
  let nc := getCenterPosition cells center
  let dx := nc.x - center.x
  let dy := nc.y - center.y
  let dz := nc.z - center.z
  let shiftMagnitude := Real.sqrt (dx^2 + dy^2 + dz^2)
  if shiftMagnitude ≤ 2 then nc
  else ⟨center.x + dx * (2 / shiftMagnitude), center.y + dy * (2 / shiftMagnitude),
    center.z + dz * (2 / shiftMagnitude)⟩

/-- Counterexample to C9 as stated: in the monolithic `server.js` the reported
center is snapped directly to the new mean; after a mass detachment leaving a
single cell 10 units away, the center moves 10 > 2 units in one tick. -/
theorem C9_center_counterexample :
    serverCenterStep ⟨0, 0, 0⟩ [⟨10, 0, 0⟩] = ⟨10, 0, 0⟩ ∧
    distR (serverCenterStep ⟨0, 0, 0⟩ [⟨10, 0, 0⟩]) ⟨0, 0, 0⟩ > 2 := by
  have hstep : serverCenterStep ⟨0, 0, 0⟩ [⟨10, 0, 0⟩] = ⟨10, 0, 0⟩ := by
    unfold serverCenterStep getCenterPosition
    rw [if_neg (by simp)]
    ext <;> simp
  refine ⟨hstep, ?_⟩
  rw [hstep]
  unfold distR
  simp only
  have : ((10:ℝ) - 0)^2 + ((0:ℝ) - 0)^2 + ((0:ℝ) - 0)^2 = 10^2 := by norm_num
  rw [this, Real.sqrt_sq (by norm_num)]
  norm_num

/-- C9 (amended): in the modular server's smoothing step the center moves at
most 2.0 units per tick, and when the required shift exceeds 2.0 it is not
snapped to the new mean; the monolithic `server.js` instead snaps the center
directly to the mean (see the counterexample). -/
theorem C9_center_cap (center : R3) (cells : List R3) :
    distR (smoothCenterStep center cells) center ≤ 2 ∧
    (2 < distR (getCenterPosition cells center) center →
      smoothCenterStep center cells ≠ getCenterPosition cells center) := by
  set nc := getCenterPosition cells center with hnc
  set dx := nc.x - center.x with hdx
  set dy := nc.y - center.y with hdy
  set dz := nc.z - center.z with hdz
  have hsq : (dx^2 + dy^2 + dz^2 : ℝ) = ((nc.x - center.x)^2 +
      (nc.y - center.y)^2 + (nc.z - center.z)^2) := by rw [hdx, hdy, hdz]
  have hdist : distR nc center = Real.sqrt (dx^2 + dy^2 + dz^2) := by
    unfold distR
    rw [hsq]
  set m := Real.sqrt (dx^2 + dy^2 + dz^2) with hm
  have hm0 : 0 ≤ m := Real.sqrt_nonneg _
  have hstep : smoothCenterStep center cells =
      (if m ≤ 2 then nc
       else ⟨center.x + dx * (2 / m), center.y + dy * (2 / m),
         center.z + dz * (2 / m)⟩) := rfl
  by_cases hcap : m ≤ 2
  · constructor
    · rw [hstep, if_pos hcap, hdist]
      exact hcap
    · intro hgt
      rw [hdist] at hgt
      exact absurd hcap (not_le.mpr hgt)
  · have hm2 : 2 < m := not_le.mp hcap
    have hmpos : 0 < m := lt_trans (by norm_num) hm2
    have hs : dx^2 + dy^2 + dz^2 = m^2 := by
      rw [hm, Real.sq_sqrt (by positivity)]
    constructor
    · rw [hstep, if_neg hcap]
      unfold distR
      simp only
      have hne : m ≠ 0 := ne_of_gt hmpos
      have h1 : (center.x + dx * (2 / m) - center.x)^2 +
          (center.y + dy * (2 / m) - center.y)^2 +
          (center.z + dz * (2 / m) - center.z)^2 =
          (dx^2 + dy^2 + dz^2) * (2 / m)^2 := by ring
      have harg : (center.x + dx * (2 / m) - center.x)^2 +
          (center.y + dy * (2 / m) - center.y)^2 +
          (center.z + dz * (2 / m) - center.z)^2 = (2:ℝ)^2 := by
        rw [h1, hs]
        field_simp
      rw [harg, Real.sqrt_sq (by norm_num)]
    · intro hgt hsnap
      rw [hstep, if_neg hcap] at hsnap
      have hfac : (2 / m) ≠ 1 := by
        intro hh
        have : m = 2 := by
          field_simp at hh
          linarith
        exact absurd this (by intro hc; rw [hc] at hm2; exact lt_irrefl _ hm2)
      have hx := congrArg R3.x hsnap
      have hy := congrArg R3.y hsnap
      have hz := congrArg R3.z hsnap
      simp only at hx hy hz
      have hdx1 : dx * (2 / m) = dx := by
        rw [hdx] at *
        linarith
      have hdy1 : dy * (2 / m) = dy := by
        rw [hdy] at *
        linarith
      have hdz1 : dz * (2 / m) = dz := by
        rw [hdz] at *
        linarith
      have hdx0 : dx * (2 / m - 1) = 0 := by
        calc dx * (2 / m - 1) = dx * (2 / m) - dx := by ring
          _ = 0 := by rw [hdx1]; ring
      have hdy0 : dy * (2 / m - 1) = 0 := by
        calc dy * (2 / m - 1) = dy * (2 / m) - dy := by ring
          _ = 0 := by rw [hdy1]; ring
      have hdz0 : dz * (2 / m - 1) = 0 := by
        calc dz * (2 / m - 1) = dz * (2 / m) - dz := by ring
          _ = 0 := by rw [hdz1]; ring
      have hne : (2 / m - 1 : ℝ) ≠ 0 := by
        intro hh
        exact hfac (by linarith)
      have hdx' : dx = 0 := by
        rcases mul_eq_zero.mp hdx0 with h | h
        · exact h
        · exact absurd h hne
      have hdy' : dy = 0 := by
        rcases mul_eq_zero.mp hdy0 with h | h
        · exact h
        · exact absurd h hne
      have hdz' : dz = 0 := by
        rcases mul_eq_zero.mp hdz0 with h | h
        · exact h
        · exact absurd h hne
      have : m = 0 := by
        rw [hm, hdx', hdy', hdz']
        simp
      linarith

/-- Witness for C9 (amended) at a concrete detached configuration. -/
theorem C9_center_cap_witness :
    (2 < distR (getCenterPosition [⟨10, 0, 0⟩] ⟨0, 0, 0⟩) ⟨0, 0, 0⟩) ∧
    distR (smoothCenterStep ⟨0, 0, 0⟩ [⟨10, 0, 0⟩]) ⟨0, 0, 0⟩ ≤ 2 ∧
    smoothCenterStep ⟨0, 0, 0⟩ [⟨10, 0, 0⟩] ≠
      getCenterPosition [⟨10, 0, 0⟩] ⟨0, 0, 0⟩ := by
  have hnc : getCenterPosition [⟨10, 0, 0⟩] ⟨0, 0, 0⟩ = (⟨10, 0, 0⟩ : R3) := by
    unfold getCenterPosition
    rw [if_neg (by simp)]
    ext <;> simp
  have hgt : 2 < distR (getCenterPosition [⟨10, 0, 0⟩] ⟨0, 0, 0⟩) ⟨0, 0, 0⟩ := by
    rw [hnc]
    unfold distR
    simp only
    have : ((10:ℝ) - 0)^2 + ((0:ℝ) - 0)^2 + ((0:ℝ) - 0)^2 = 10^2 := by norm_num
    rw [this, Real.sqrt_sq (by norm_num)]
    norm_num
  exact ⟨hgt, (C9_center_cap ⟨0, 0, 0⟩ [⟨10, 0, 0⟩]).1,
    (C9_center_cap ⟨0, 0, 0⟩ [⟨10, 0, 0⟩]).2 hgt⟩

/-! ## Terrain destruction (`MovingVoxel.createDestruction`, `server.js`
lines 334-381).  `Math.random()` is modelled as an explicit stream of draws,
consumed in program order. -/

/-- A dislodged cell spawned as a free body (`new MovingVoxel(blockCenter,
[0,0,0], false, null)` with its velocity overwritten). -/
structure Debris where
  pos : R3
  vel : R3
  isProjectile : Bool

/-- The `[-3, 3]` loop range of the destruction cube. -/
def offs7 : List ℤ := [-3, -2, -1, 0, 1, 2, 3]

/-- The `dx`/`dy`/`dz` iteration order of `createDestruction`'s triple loop. -/
def destructionOffsets : List (ℤ × ℤ × ℤ) :=
  offs7.flatMap fun dx => offs7.flatMap fun dy => offs7.map fun dz => (dx, dy, dz)

/-- Accumulated state while `createDestruction` iterates: the (mutated) grid,
the debris pushed to `server.movingVoxels`, and the number of random draws
consumed. -/
structure DestrState where
  world : World
  debris : List Debris
  draws : ℕ

/-- One iteration of `createDestruction`'s triple loop body. -/
noncomputable def destrStep (xi yi zi : ℤ) (speed : ℝ) (vel : R3)
    (rand : ℕ → ℝ) (st : DestrState) (o : ℤ × ℤ × ℤ) : DestrState :=
  let dx := o.1
  let dy := o.2.1
  let dz := o.2.2
  let blockX := xi + dx
  let blockY := yi + dy
  let blockZ := zi + dz
  let dist := Real.sqrt ((dx : ℝ)^2 + (dy : ℝ)^2 + (dz : ℝ)^2)
  if dist ≤ 3 ∧ getWorld st.world blockX blockY blockZ ≠ 0 then
    let forceR := max 0 (1 - dist / 3)
    if 1/2 < dist then
      if rand st.draws < forceR * (7/10) then
        let directionX := ((blockX : ℝ) + 1/2) - ((xi : ℝ) + 1/2)
        let directionY := ((blockY : ℝ) + 1/2) - ((yi : ℝ) + 1/2)
        let directionZ := ((blockZ : ℝ) + 1/2) - ((zi : ℝ) + 1/2)
        let dirLength := Real.sqrt (directionX^2 + directionY^2 + directionZ^2)
        if 0 < dirLength then
          let velocityTransfer := speed * forceR * (4/5)
          let newVelX := directionX / dirLength * velocityTransfer + vel.x * (3/10)
          let newVelY := directionY / dirLength * velocityTransfer + vel.y * (3/10) + 8
          let newVelZ := directionZ / dirLength * velocityTransfer + vel.z * (3/10)
          ⟨(setWorld st.world blockX blockY blockZ 0).1,
            st.debris ++ [⟨⟨(blockX : ℝ) + 1/2, (blockY : ℝ) + 1/2,
              (blockZ : ℝ) + 1/2⟩, ⟨newVelX, newVelY, newVelZ⟩, false⟩],
            st.draws + 1⟩
        else ⟨st.world, st.debris, st.draws + 1⟩
      else ⟨st.world, st.debris, st.draws + 1⟩
    else st
  else st

/-- Embeds `MovingVoxel.createDestruction`: iterate the radius-3 cube around the
impact cell, probabilistically dislodging solid cells into debris. -/
noncomputable def createDestruction (w : World) (xi yi zi : ℤ) (speed : ℝ)
    (vel : R3) (rand : ℕ → ℝ) : DestrState :=
  destructionOffsets.foldl (destrStep xi yi zi speed vel rand) ⟨w, [], 0⟩

/-- An offset is eligible for dislodging w.r.t. the initial grid: within
Euclidean distance 3 of the impact, outside the 0.5 exclusion, and solid. -/
def ballEligible (w : World) (xi yi zi : ℤ) (o : ℤ × ℤ × ℤ) : Bool :=
  decide (1 ≤ o.1^2 + o.2.1^2 + o.2.2^2 ∧ o.1^2 + o.2.1^2 + o.2.2^2 ≤ 9 ∧
    getWorld w (xi + o.1) (yi + o.2.1) (zi + o.2.2) ≠ 0)

/-- Number of solid cells of the initial grid within the radius-3 ball,
excluding the impact cell itself. -/
def ballCount (w : World) (xi yi zi : ℤ) : ℕ :=
  (destructionOffsets.filter (ballEligible w xi yi zi)).length

lemma getWorld_set_zero (w : World) (a b c x y z : ℤ)
    (h : getWorld (setWorld w a b c 0).1 x y z ≠ 0) : getWorld w x y z ≠ 0 := by
  by_cases he : (x, y, z) = (a, b, c)
  · obtain ⟨rfl, rfl, rfl⟩ : x = a ∧ y = b ∧ z = c := by
      rw [Prod.mk.injEq, Prod.mk.injEq] at he
      exact ⟨he.1, he.2.1, he.2.2⟩
    by_cases hb : inB x y z
    · rw [getWorld_setWorld_self w 0 hb] at h
      simp at h
    · intro hc
      apply h
      unfold getWorld setWorld
      have hoob : x < 0 ∨ 128 ≤ x ∨ y < 0 ∨ 128 ≤ y ∨ z < 0 ∨ 128 ≤ z :=
        (oob_iff x y z).mpr hb
      rw [if_pos hoob]
  · rw [getWorld_setWorld_ne w 0 he] at h
    exact h

/-- Monotone dominance of the initial grid over the accumulated grid. -/
def DestrDom (w : World) (st : DestrState) : Prop :=
  ∀ x y z : ℤ, getWorld st.world x y z ≠ 0 → getWorld w x y z ≠ 0

lemma sqrt_le_three {n : ℤ} (hn : (0:ℤ) ≤ n)
    (h : Real.sqrt (n : ℝ) ≤ 3) : n ≤ 9 := by
  have h0 : (0:ℝ) ≤ (n : ℝ) := by exact_mod_cast hn
  have hs := Real.sq_sqrt h0
  have h9 : (n : ℝ) ≤ 9 := by nlinarith [Real.sqrt_nonneg (n : ℝ)]
  exact_mod_cast h9

lemma half_lt_sqrt {n : ℤ} (hn : (0:ℤ) ≤ n)
    (h : (1:ℝ)/2 < Real.sqrt (n : ℝ)) : 1 ≤ n := by
  have h0 : (0:ℝ) ≤ (n : ℝ) := by exact_mod_cast hn
  have hs := Real.sq_sqrt h0
  have hq : (1:ℝ)/4 < (n : ℝ) := by nlinarith [Real.sqrt_nonneg (n : ℝ)]
  have : (0:ℤ) < n := by exact_mod_cast lt_of_le_of_lt (by norm_num : (0:ℝ) ≤ 1/4) hq
  omega

lemma destrStep_inv (w : World) (xi yi zi : ℤ) (speed : ℝ) (vel : R3)
    (rand : ℕ → ℝ) (st : DestrState) (o : ℤ × ℤ × ℤ)
    (hdom : DestrDom w st)
    (himp : getWorld st.world xi yi zi = getWorld w xi yi zi)
    (hdeb : ∀ d ∈ st.debris, d.isProjectile = false) :
    DestrDom w (destrStep xi yi zi speed vel rand st o) ∧
    getWorld (destrStep xi yi zi speed vel rand st o).world xi yi zi =
      getWorld w xi yi zi ∧
    (∀ d ∈ (destrStep xi yi zi speed vel rand st o).debris,
      d.isProjectile = false) ∧
    (destrStep xi yi zi speed vel rand st o).debris.length ≤
      st.debris.length + (if ballEligible w xi yi zi o then 1 else 0) := by
  rcases o with ⟨dx, dy, dz⟩
  unfold destrStep
  simp only
  by_cases h1 : Real.sqrt ((dx : ℝ)^2 + (dy : ℝ)^2 + (dz : ℝ)^2) ≤ 3 ∧
      getWorld st.world (xi + dx) (yi + dy) (zi + dz) ≠ 0
  swap
  · rw [if_neg h1]
    exact ⟨hdom, himp, hdeb, by split <;> omega⟩
  rw [if_pos h1]
  by_cases h2 : (1:ℝ)/2 < Real.sqrt ((dx : ℝ)^2 + (dy : ℝ)^2 + (dz : ℝ)^2)
  swap
  · rw [if_neg h2]
    exact ⟨hdom, himp, hdeb, by split <;> omega⟩
  rw [if_pos h2]
  have hcast : ((dx^2 + dy^2 + dz^2 : ℤ) : ℝ) = (dx : ℝ)^2 + (dy : ℝ)^2 + (dz : ℝ)^2 := by
    push_cast
    ring
  have hnn : (0:ℤ) ≤ dx^2 + dy^2 + dz^2 := by positivity
  have hn9 : dx^2 + dy^2 + dz^2 ≤ 9 := by
    apply sqrt_le_three hnn
    rw [hcast]
    exact h1.1
  have hn1 : 1 ≤ dx^2 + dy^2 + dz^2 := by
    apply half_lt_sqrt hnn
    rw [hcast]
    exact h2
  have hne0 : ¬ (dx = 0 ∧ dy = 0 ∧ dz = 0) := by
    rintro ⟨rfl, rfl, rfl⟩
    simp at hn1
  have hcellne : ((xi + dx, yi + dy, zi + dz) : ℤ × ℤ × ℤ) ≠ (xi, yi, zi) := by
    intro hh
    rw [Prod.mk.injEq, Prod.mk.injEq] at hh
    exact hne0 ⟨by omega, by omega, by omega⟩
  have helig : ballEligible w xi yi zi (dx, dy, dz) = true := by
    unfold ballEligible
    simp only [decide_eq_true_eq]
    exact ⟨hn1, hn9, hdom _ _ _ h1.2⟩
  by_cases h3 : rand st.draws <
      max 0 (1 - Real.sqrt ((dx : ℝ)^2 + (dy : ℝ)^2 + (dz : ℝ)^2) / 3) * (7/10)
  swap
  · rw [if_neg h3]
    exact ⟨hdom, himp, hdeb, by rw [helig]; simp⟩
  rw [if_pos h3]
  by_cases h4 : (0:ℝ) < Real.sqrt
      ((((xi + dx : ℤ) : ℝ) + 1/2 - ((xi : ℝ) + 1/2))^2 +
        (((yi + dy : ℤ) : ℝ) + 1/2 - ((yi : ℝ) + 1/2))^2 +
        (((zi + dz : ℤ) : ℝ) + 1/2 - ((zi : ℝ) + 1/2))^2)
  swap
  · rw [if_neg h4]
    exact ⟨hdom, himp, hdeb, by rw [helig]; simp⟩
  rw [if_pos h4]
  refine ⟨?_, ?_, ?_, ?_⟩
  · intro x y z hx
    exact hdom x y z (getWorld_set_zero st.world _ _ _ x y z hx)
  · simp only
    rw [getWorld_setWorld_ne st.world 0 (Ne.symm hcellne)]
    exact himp
  · intro d hd
    rcases List.mem_append.mp hd with h | h
    · exact hdeb d h
    · simp only [List.mem_singleton] at h
      rw [h]
  · simp only [List.length_append, List.length_singleton]
    rw [helig]
    simp

lemma destr_fold_inv (w : World) (xi yi zi : ℤ) (speed : ℝ) (vel : R3)
    (rand : ℕ → ℝ) :
    ∀ (offs : List (ℤ × ℤ × ℤ)) (st : DestrState),
      DestrDom w st →
      getWorld st.world xi yi zi = getWorld w xi yi zi →
      (∀ d ∈ st.debris, d.isProjectile = false) →
      DestrDom w (offs.foldl (destrStep xi yi zi speed vel rand) st) ∧
      getWorld (offs.foldl (destrStep xi yi zi speed vel rand) st).world
        xi yi zi = getWorld w xi yi zi ∧
      (∀ d ∈ (offs.foldl (destrStep xi yi zi speed vel rand) st).debris,
        d.isProjectile = false) ∧
      (offs.foldl (destrStep xi yi zi speed vel rand) st).debris.length ≤
        st.debris.length + (offs.filter (ballEligible w xi yi zi)).length := by
  intro offs
  induction offs with
  | nil =>
    intro st h1 h2 h3
    exact ⟨h1, h2, h3, by simp⟩
  | cons o t ih =>
    intro st h1 h2 h3
    rcases destrStep_inv w xi yi zi speed vel rand st o h1 h2 h3 with
      ⟨g1, g2, g3, g4⟩
    rcases ih (destrStep xi yi zi speed vel rand st o) g1 g2 g3 with
      ⟨k1, k2, k3, k4⟩
    refine ⟨k1, k2, k3, ?_⟩
    simp only [List.foldl_cons] at *
    rw [List.filter_cons]
    by_cases he : ballEligible w xi yi zi o = true
    · rw [if_pos he]
      rw [if_pos he] at g4
      simp only [List.length_cons]
      omega
    · rw [if_neg he]
      rw [if_neg he] at g4
      omega

/-- C6 (amended): over any random stream, terrain destruction spawns at most
as many debris bodies as there are solid cells within Euclidean distance 3 of
the impact (excluding the impact cell), every spawned body is a non-projectile
(Debris), and the impact cell itself is left unchanged by the destruction —
the `dist > 0.5` exclusion always skips it. -/
theorem C6_destruction_bounds (w : World) (xi yi zi : ℤ) (speed : ℝ)
    (vel : R3) (rand : ℕ → ℝ) :
    (createDestruction w xi yi zi speed vel rand).debris.length ≤
      ballCount w xi yi zi ∧
    (∀ d ∈ (createDestruction w xi yi zi speed vel rand).debris,
      d.isProjectile = false) ∧
    getWorld (createDestruction w xi yi zi speed vel rand).world xi yi zi =
      getWorld w xi yi zi := by
  have h := destr_fold_inv w xi yi zi speed vel rand destructionOffsets
    ⟨w, [], 0⟩ (fun x y z hx => hx) rfl (by intro d hd; cases hd)
  refine ⟨?_, h.2.2.1, h.2.1⟩
  refine le_trans h.2.2.2 ?_
  simp [ballCount]

/-- A solid slab occupying `y ∈ [32, 48)`, used in the C6 counterexample. -/
def wSlabC6 : World :=
  fun i => if 32 ≤ (i / 128) % 128 ∧ (i / 128) % 128 < 48 ∧ 0 ≤ i then 1 else 0

/-- The random stream in which every draw is 1 (never below any dislodge
probability, which is at most 0.7). -/
noncomputable def onesRand : ℕ → ℝ := fun _ => 1

lemma destrStep_ones (xi yi zi : ℤ) (speed : ℝ) (vel : R3) (st : DestrState)
    (o : ℤ × ℤ × ℤ) :
    (destrStep xi yi zi speed vel onesRand st o).world = st.world ∧
    (destrStep xi yi zi speed vel onesRand st o).debris = st.debris := by
  rcases o with ⟨dx, dy, dz⟩
  unfold destrStep
  simp only
  by_cases h1 : Real.sqrt ((dx : ℝ)^2 + (dy : ℝ)^2 + (dz : ℝ)^2) ≤ 3 ∧
      getWorld st.world (xi + dx) (yi + dy) (zi + dz) ≠ 0
  swap
  · rw [if_neg h1]
    exact ⟨rfl, rfl⟩
  rw [if_pos h1]
  by_cases h2 : (1:ℝ)/2 < Real.sqrt ((dx : ℝ)^2 + (dy : ℝ)^2 + (dz : ℝ)^2)
  swap
  · rw [if_neg h2]
    exact ⟨rfl, rfl⟩
  rw [if_pos h2]
  have hfr : max 0 (1 - Real.sqrt ((dx : ℝ)^2 + (dy : ℝ)^2 + (dz : ℝ)^2) / 3) *
      (7/10) ≤ 7/10 := by
    have hb : max 0 (1 - Real.sqrt ((dx : ℝ)^2 + (dy : ℝ)^2 + (dz : ℝ)^2) / 3) ≤ 1 := by
      apply max_le
      · norm_num
      · have := Real.sqrt_nonneg ((dx : ℝ)^2 + (dy : ℝ)^2 + (dz : ℝ)^2)
        linarith
    nlinarith
  rw [if_neg (by
    have h1 : onesRand st.draws = 1 := rfl
    rw [h1]
    exact not_lt.mpr (by linarith))]
  exact ⟨rfl, rfl⟩

lemma destr_fold_ones (xi yi zi : ℤ) (speed : ℝ) (vel : R3) :
    ∀ (offs : List (ℤ × ℤ × ℤ)) (st : DestrState),
      (offs.foldl (destrStep xi yi zi speed vel onesRand) st).world = st.world ∧
      (offs.foldl (destrStep xi yi zi speed vel onesRand) st).debris = st.debris := by
  intro offs
  induction offs with
  | nil => intro st; exact ⟨rfl, rfl⟩
  | cons o t ih =>
    intro st
    rcases destrStep_ones xi yi zi speed vel st o with ⟨h1, h2⟩
    rcases ih (destrStep xi yi zi speed vel onesRand st o) with ⟨k1, k2⟩
    simp only [List.foldl_cons]
    rw [k1, k2, h1, h2]
    exact ⟨rfl, rfl⟩

/-- Counterexample to C6 as stated: a projectile of speed 30 (velocity
`(0,-30,0)`) impacting the solid cell `(64,47,64)` of a flat slab, with a
random stream that never dislodges, spawns zero debris (not "at least 1"),
and the impacted cell itself is still solid afterwards (not "empty"): the
destruction loop excludes the impact cell via its `dist > 0.5` guard. -/
theorem C6_destruction_counterexample :
    (createDestruction wSlabC6 64 47 64 30 ⟨0, -30, 0⟩ onesRand).debris = [] ∧
    getWorld (createDestruction wSlabC6 64 47 64 30 ⟨0, -30, 0⟩ onesRand).world
      64 47 64 = 1 ∧
    getWorld wSlabC6 64 47 64 = 1 ∧
    nsq ⟨0, -30, 0⟩ = 30^2 ∧ (15:ℝ) < 30 := by
  rcases destr_fold_ones 64 47 64 30 ⟨0, -30, 0⟩ destructionOffsets
    ⟨wSlabC6, [], 0⟩ with ⟨h1, h2⟩
  refine ⟨h2, ?_, by decide, ?_, by norm_num⟩
  · show getWorld (createDestruction wSlabC6 64 47 64 30 ⟨0, -30, 0⟩ onesRand).world
      64 47 64 = 1
    unfold createDestruction
    rw [h1]
    decide
  · unfold nsq
    norm_num

/-! ## Trajectory-swept projectile vs player-cell collision
(`MovingVoxel.handlePlayerCollisionsTrajectory` and
`MovingVoxel.findTrajectoryVoxelIntersection` of the modular server, together
with the discrete-position thrower-immunity guard of the monolithic
`server.js` update loop). -/

/-- The zero vector (default element for out-of-range list reads; never
actually read in-range). -/
def r3zero : R3 := ⟨0, 0, 0⟩

/-- A player as seen by the collision scan: its stored center and the
positions of its remaining body cells (each of size 0.45). -/
structure PlayerR where
  centerPos : R3
  bodyVoxels : List R3

/-- Embeds `Player.getCenterPosition` applied to a `PlayerR`. -/
noncomputable def centerOf (p : PlayerR) : R3 :=
  getCenterPosition p.bodyVoxels p.centerPos

/-- Embeds `MovingVoxel.findTrajectoryVoxelIntersection`: earliest parametric
intersection `t` of the tick's travel segment with the sphere of combined
radius around a player cell; closest-point pre-test, quadratic refinement,
clamped-projection fallback. -/
noncomputable def fTVI (sp traj : R3) (psize vsize : ℝ) (voxPos : R3) :
    Option ℝ :=
  let combinedRadius := psize + vsize
  let toVoxelX := voxPos.x - sp.x
  let toVoxelY := voxPos.y - sp.y
  let toVoxelZ := voxPos.z - sp.z
  let trajectoryDot := traj.x^2 + traj.y^2 + traj.z^2
  if trajectoryDot < 1/1000 then none
  else
    let projectionLength :=
      (toVoxelX * traj.x + toVoxelY * traj.y + toVoxelZ * traj.z) / trajectoryDot
    let clampedT := max 0 (min 1 projectionLength)
    let closestX := sp.x + traj.x * clampedT
    let closestY := sp.y + traj.y * clampedT
    let closestZ := sp.z + traj.z * clampedT
    let distance := Real.sqrt ((closestX - voxPos.x)^2 + (closestY - voxPos.y)^2 +
      (closestZ - voxPos.z)^2)
    if distance ≤ combinedRadius then
      let a := trajectoryDot
      let b := 2 * (traj.x * (sp.x - voxPos.x) + traj.y * (sp.y - voxPos.y) +
        traj.z * (sp.z - voxPos.z))
      let c := (sp.x - voxPos.x)^2 + (sp.y - voxPos.y)^2 + (sp.z - voxPos.z)^2 -
        combinedRadius^2
      let discriminant := b^2 - 4 * a * c
      if 0 ≤ discriminant then
        let sqrtDiscriminant := Real.sqrt discriminant
        let t1 := (-b - sqrtDiscriminant) / (2 * a)
        let t2 := (-b + sqrtDiscriminant) / (2 * a)
        if 0 ≤ t1 ∧ t1 ≤ 1 then some t1
        else if 0 ≤ t2 ∧ t2 ≤ 1 then some t2
        else some clampedT
      else some clampedT
    else none

/-- A recorded closest collision: parametric time, index of the player in the
iteration order, and index of the cell within that player's `bodyVoxels`. -/
structure Cand where
  t : ℝ
  pIdx : ℕ
  vIdx : ℕ

/-- The `t !== null && t >= 0 && t <= 1 && t < closestT` update of the
closest-collision accumulator. -/
noncomputable def consider (best : Option Cand) (tOpt : Option ℝ)
    (pj i : ℕ) : Option Cand :=
  match tOpt with
  | none => best
  | some t =>
    match best with
    | none => if 0 ≤ t ∧ t ≤ 1 then some ⟨t, pj, i⟩ else none
    | some b => if 0 ≤ t ∧ t ≤ 1 ∧ t < b.t then some ⟨t, pj, i⟩ else some b

/-- The inner voxel loop (`for i = bodyVoxels.length - 1; i >= 0; i--`),
processing indices `n-1` down to `0`. -/
noncomputable def scanIdx (sp traj : R3) (psize : ℝ) (pj : ℕ)
    (voxels : List R3) : ℕ → Option Cand → Option Cand
  | 0, best => best
  | i + 1, best =>
    scanIdx sp traj psize pj voxels i
      (consider best (fTVI sp traj psize (9/20) (voxels.getD i r3zero)) pj i)

/-- The outer player loop of `handlePlayerCollisionsTrajectory`, threading the
closest collision and the `hasLeftThrowerHitbox` latch. -/
noncomputable def scanPlayersAux (thr : Option ℕ) (frames : ℕ) (psize : ℝ)
    (sp traj : R3) :
    List (ℕ × PlayerR) → ℕ → Option Cand × Bool → Option Cand × Bool
  | [], _, acc => acc
  | pp :: rest, j, acc =>
    if thr = some pp.1 ∧ acc.2 = false then
      if distR sp (centerOf pp.2) < 20 ∧ frames < 10 then
        scanPlayersAux thr frames psize sp traj rest (j + 1) acc
      else
        scanPlayersAux thr frames psize sp traj rest (j + 1)
          (scanIdx sp traj psize j pp.2.bodyVoxels pp.2.bodyVoxels.length acc.1,
            true)
    else
      scanPlayersAux thr frames psize sp traj rest (j + 1)
        (scanIdx sp traj psize j pp.2.bodyVoxels pp.2.bodyVoxels.length acc.1,
          acc.2)

/-- The observable outcome of one `handlePlayerCollisionsTrajectory` call: the
updated player list, whether the projectile is killed (`'kill_projectile'`,
upon which `updateMovingVoxels` splices it out of the moving set), the
projectile position, and the immunity latch. -/
structure TrajOut where
  players : List (ℕ × PlayerR)
  killed : Bool
  pos : R3
  hasLeft : Bool

/-- Embeds `MovingVoxel.handlePlayerCollisionsTrajectory`: swept scan over every
player cell; the single closest-in-time hit is resolved by deleting that cell
and killing the projectile (mutual destruction, `handlePlayerVoxelCollision`
returns `'kill_both'` unconditionally). -/
noncomputable def hPCT (thr : Option ℕ) (hasLeft : Bool) (frames : ℕ)
    (psize : ℝ) (pos sp ep : R3) (players : List (ℕ × PlayerR)) : TrajOut :=
  if players.length = 0 then ⟨players, false, pos, hasLeft⟩
  else
    let traj : R3 := ⟨ep.x - sp.x, ep.y - sp.y, ep.z - sp.z⟩
    if Real.sqrt (traj.x^2 + traj.y^2 + traj.z^2) < 1/1000 then
      ⟨players, false, pos, hasLeft⟩
    else
      let res := scanPlayersAux thr frames psize sp traj players 0 (none, hasLeft)
      match res.1 with
      | none => ⟨players, false, pos, res.2⟩
      | some c =>
        let cp : R3 := ⟨sp.x + traj.x * c.t, sp.y + traj.y * c.t,
          sp.z + traj.z * c.t⟩
        let pp := players.getD c.pIdx (0, ⟨r3zero, []⟩)
        ⟨players.set c.pIdx
            (pp.1, ⟨pp.2.centerPos, pp.2.bodyVoxels.eraseIdx c.vIdx⟩),
          true, cp, res.2⟩

/-- The thrower-immunity guard of the discrete-position update loop in the
monolithic `server.js` (lines 261-276): returns whether the player is skipped
and the new value of `hasLeftThrowerHitbox`. -/
noncomputable def updatePathSkip (thr : Option ℕ) (hasLeft : Bool)
    (pos center : R3) (frames : ℕ) (pid : ℕ) : Bool × Bool :=
  if thr = some pid ∧ hasLeft = false then
    if 20 < distR pos center ∨ 10 < frames then (false, true)
    else (true, false)
  else (false, hasLeft)

/-- Whether the trajectory path's guard skips a player, stated against the
latch value at entry (equal to the threaded value when player ids are
distinct). -/
def skipPb (thr : Option ℕ) (hl0 : Bool) (frames : ℕ) (sp : R3)
    (pp : ℕ × PlayerR) : Prop :=
  thr = some pp.1 ∧ hl0 = false ∧ distR sp (centerOf pp.2) < 20 ∧ frames < 10

noncomputable instance (thr : Option ℕ) (hl0 : Bool) (frames : ℕ) (sp : R3)
    (pp : ℕ × PlayerR) : Decidable (skipPb thr hl0 frames sp pp) := by
  unfold skipPb; infer_instance

/-- Unthreaded form of the player scan used in proofs: the guard is evaluated
against the entry latch value. -/
noncomputable def auxSimple (thr : Option ℕ) (hl0 : Bool) (frames : ℕ)
    (psize : ℝ) (sp traj : R3) :
    List (ℕ × PlayerR) → ℕ → Option Cand → Option Cand
  | [], _, best => best
  | pp :: rest, j, best =>
    auxSimple thr hl0 frames psize sp traj rest (j + 1)
      (if skipPb thr hl0 frames sp pp then best
       else scanIdx sp traj psize j pp.2.bodyVoxels pp.2.bodyVoxels.length best)

lemma consider_sound {best : Option Cand} {tOpt : Option ℝ} {pj i : ℕ}
    {c : Cand} (h : consider best tOpt pj i = some c) :
    best = some c ∨ (tOpt = some c.t ∧ c.pIdx = pj ∧ c.vIdx = i ∧
      0 ≤ c.t ∧ c.t ≤ 1) := by
  cases tOpt with
  | none => simp only [consider] at h; exact Or.inl h
  | some t =>
    cases best with
    | none =>
      simp only [consider] at h
      by_cases hv : 0 ≤ t ∧ t ≤ 1
      · rw [if_pos hv] at h
        simp only [Option.some.injEq] at h
        subst h
        exact Or.inr ⟨rfl, rfl, rfl, hv.1, hv.2⟩
      · rw [if_neg hv] at h
        cases h
    | some b =>
      simp only [consider] at h
      by_cases hv : 0 ≤ t ∧ t ≤ 1 ∧ t < b.t
      · rw [if_pos hv] at h
        simp only [Option.some.injEq] at h
        subst h
        exact Or.inr ⟨rfl, rfl, rfl, hv.1, hv.2.1⟩
      · rw [if_neg hv] at h
        exact Or.inl h

lemma consider_min_best {best : Option Cand} {tOpt : Option ℝ} {pj i : ℕ}
    {c : Cand} (h : consider best tOpt pj i = some c) :
    ∀ b, best = some b → c.t ≤ b.t := by
  intro b hb
  subst hb
  cases tOpt with
  | none =>
    simp only [consider, Option.some.injEq] at h
    rw [← h]
  | some t =>
    simp only [consider] at h
    by_cases hv : 0 ≤ t ∧ t ≤ 1 ∧ t < b.t
    · rw [if_pos hv] at h
      simp only [Option.some.injEq] at h
      rw [← h]
      exact le_of_lt hv.2.2
    · rw [if_neg hv] at h
      simp only [Option.some.injEq] at h
      rw [← h]

lemma consider_min_t {best : Option Cand} {tOpt : Option ℝ} {pj i : ℕ}
    {c : Cand} (h : consider best tOpt pj i = some c) :
    ∀ t, tOpt = some t → 0 ≤ t → t ≤ 1 → c.t ≤ t := by
  intro t ht h0 h1
  subst ht
  cases best with
  | none =>
    simp only [consider] at h
    rw [if_pos ⟨h0, h1⟩] at h
    simp only [Option.some.injEq] at h
    rw [← h]
  | some b =>
    simp only [consider] at h
    by_cases hv : 0 ≤ t ∧ t ≤ 1 ∧ t < b.t
    · rw [if_pos hv] at h
      simp only [Option.some.injEq] at h
      rw [← h]
    · rw [if_neg hv] at h
      simp only [Option.some.injEq] at h
      rw [← h]
      push_neg at hv
      exact hv h0 h1

lemma consider_none {best : Option Cand} {tOpt : Option ℝ} {pj i : ℕ}
    (h : consider best tOpt pj i = none) :
    best = none ∧ ∀ t, tOpt = some t → ¬ (0 ≤ t ∧ t ≤ 1) := by
  cases tOpt with
  | none => simp only [consider] at h; exact ⟨h, by intro t ht; cases ht⟩
  | some t =>
    cases best with
    | none =>
      simp only [consider] at h
      by_cases hv : 0 ≤ t ∧ t ≤ 1
      · rw [if_pos hv] at h
        cases h
      · exact ⟨rfl, by
          intro t' ht'
          simp only [Option.some.injEq] at ht'
          subst ht'
          exact hv⟩
    | some b =>
      simp only [consider] at h
      by_cases hv : 0 ≤ t ∧ t ≤ 1 ∧ t < b.t
      · rw [if_pos hv] at h
        cases h
      · rw [if_neg hv] at h
        cases h

lemma scanIdx_sound (sp traj : R3) (psize : ℝ) (pj : ℕ) (voxels : List R3) :
    ∀ (n : ℕ) (best : Option Cand) (c : Cand),
      scanIdx sp traj psize pj voxels n best = some c →
      best = some c ∨ (c.pIdx = pj ∧ c.vIdx < n ∧
        fTVI sp traj psize (9/20) (voxels.getD c.vIdx r3zero) = some c.t ∧
        0 ≤ c.t ∧ c.t ≤ 1) := by
  intro n
  induction n with
  | zero => intro best c h; exact Or.inl h
  | succ m ih =>
    intro best c h
    rcases ih _ c h with hb | hdata
    · rcases consider_sound hb with hb' | ⟨hf, hp, hi, h0, h1⟩
      · exact Or.inl hb'
      · exact Or.inr ⟨hp, by omega, by rw [hi]; exact hf, h0, h1⟩
    · exact Or.inr ⟨hdata.1, by omega, hdata.2.2.1, hdata.2.2.2⟩

lemma scanIdx_none (sp traj : R3) (psize : ℝ) (pj : ℕ) (voxels : List R3) :
    ∀ (n : ℕ) (best : Option Cand),
      scanIdx sp traj psize pj voxels n best = none →
      best = none ∧ ∀ i < n, ∀ t,
        fTVI sp traj psize (9/20) (voxels.getD i r3zero) = some t →
        ¬ (0 ≤ t ∧ t ≤ 1) := by
  intro n
  induction n with
  | zero => intro best h; exact ⟨h, by omega⟩
  | succ m ih =>
    intro best h
    rcases ih _ h with ⟨hcons, hno⟩
    rcases consider_none hcons with ⟨hb, hm⟩
    refine ⟨hb, ?_⟩
    intro i hi t hf
    by_cases him : i = m
    · subst him
      exact hm t hf
    · exact hno i (by omega) t hf

lemma scanIdx_min (sp traj : R3) (psize : ℝ) (pj : ℕ) (voxels : List R3) :
    ∀ (n : ℕ) (best : Option Cand) (c : Cand),
      scanIdx sp traj psize pj voxels n best = some c →
      (∀ b, best = some b → c.t ≤ b.t) ∧
      (∀ i < n, ∀ t,
        fTVI sp traj psize (9/20) (voxels.getD i r3zero) = some t →
        0 ≤ t → t ≤ 1 → c.t ≤ t) := by
  intro n
  induction n with
  | zero => intro best c h; exact ⟨fun b hb => by rw [hb] at h; injection h with hh; rw [hh], by omega⟩
  | succ m ih =>
    intro best c h
    rcases ih _ c h with ⟨ihb, ihi⟩
    constructor
    · intro b hb
      subst hb
      cases hcons : consider (some b) (fTVI sp traj psize (9/20)
          (voxels.getD m r3zero)) pj m with
      | none =>
        rcases consider_none hcons with ⟨hb', _⟩
        cases hb'
      | some b' =>
        exact le_trans (ihb b' hcons) (consider_min_best hcons b rfl)
    · intro i hi t hf h0 h1
      by_cases him : i = m
      · subst him
        cases hcons : consider best (fTVI sp traj psize (9/20)
            (voxels.getD i r3zero)) pj i with
        | none =>
          rcases consider_none hcons with ⟨_, hm⟩
          exact absurd ⟨h0, h1⟩ (hm t hf)
        | some b' =>
          exact le_trans (ihb b' hcons) (consider_min_t hcons t hf h0 h1)
      · exact ihi i (by omega) t hf h0 h1

lemma scanPlayersAux_latch (thr : Option ℕ) (frames : ℕ) (psize : ℝ)
    (sp traj : R3) :
    ∀ (rest : List (ℕ × PlayerR)) (j : ℕ) (best : Option Cand),
      (scanPlayersAux thr frames psize sp traj rest j (best, true)).2 = true := by
  intro rest
  induction rest with
  | nil => intro j best; rfl
  | cons pp t ih =>
    intro j best
    unfold scanPlayersAux
    rw [if_neg (by simp)]
    exact ih (j + 1) _

lemma scanPlayersAux_nothrower (thr : Option ℕ) (frames : ℕ) (psize : ℝ)
    (sp traj : R3) :
    ∀ (rest : List (ℕ × PlayerR)) (j : ℕ) (best : Option Cand) (hl : Bool)
      (hl0 : Bool),
      (∀ pp ∈ rest, ¬ thr = some pp.1) →
      (scanPlayersAux thr frames psize sp traj rest j (best, hl)).1 =
        auxSimple thr hl0 frames psize sp traj rest j best := by
  intro rest
  induction rest with
  | nil => intro j best hl hl0 hno; rfl
  | cons pp t ih =>
    intro j best hl hl0 hno
    unfold scanPlayersAux auxSimple
    rw [if_neg (by
      intro hh
      exact hno pp (List.mem_cons_self pp t) hh.1)]
    rw [if_neg (by
      intro hh
      exact hno pp (List.mem_cons_self pp t) hh.1)]
    exact ih (j + 1) _ hl hl0 (fun qq hq => hno qq (List.mem_cons_of_mem pp hq))

lemma scanPlayersAux_eq_simple (thr : Option ℕ) (frames : ℕ) (psize : ℝ)
    (sp traj : R3) :
    ∀ (rest : List (ℕ × PlayerR)) (j : ℕ) (best : Option Cand) (hl0 : Bool),
      (rest.map Prod.fst).Nodup →
      (scanPlayersAux thr frames psize sp traj rest j (best, hl0)).1 =
        auxSimple thr hl0 frames psize sp traj rest j best := by
  intro rest
  induction rest with
  | nil => intro j best hl0 hnd; rfl
  | cons pp t ih =>
    intro j best hl0 hnd
    have hndt : (t.map Prod.fst).Nodup := (List.nodup_cons.mp hnd).2
    unfold scanPlayersAux auxSimple
    by_cases hthr : thr = some pp.1
    · cases hl0 with
      | true =>
        rw [if_neg (by simp)]
        rw [if_neg (by
          intro hh
          exact absurd hh.2.1 (by simp))]
        exact ih (j + 1) _ true hndt
      | false =>
        rw [if_pos ⟨hthr, rfl⟩]
        by_cases hg : distR sp (centerOf pp.2) < 20 ∧ frames < 10
        · rw [if_pos hg]
          rw [if_pos ⟨hthr, rfl, hg.1, hg.2⟩]
          exact ih (j + 1) best false hndt
        · rw [if_neg hg]
          rw [if_neg (by
            intro hh
            exact hg ⟨hh.2.2.1, hh.2.2.2⟩)]
          apply scanPlayersAux_nothrower
          intro qq hq hthr'
          have : qq.1 = pp.1 := by
            rw [hthr] at hthr'
            injection hthr' with hval
            exact hval.symm
          have hmem : pp.1 ∈ t.map Prod.fst := by
            rw [← this]
            exact List.mem_map_of_mem Prod.fst hq
          exact (List.nodup_cons.mp hnd).1 hmem
    · rw [if_neg (by intro hh; exact hthr hh.1)]
      rw [if_neg (by intro hh; exact hthr hh.1)]
      exact ih (j + 1) _ hl0 hndt

lemma auxSimple_sound (thr : Option ℕ) (hl0 : Bool) (frames : ℕ) (psize : ℝ)
    (sp traj : R3) :
    ∀ (rest : List (ℕ × PlayerR)) (j : ℕ) (best : Option Cand) (c : Cand),
      auxSimple thr hl0 frames psize sp traj rest j best = some c →
      best = some c ∨ ∃ k pp, rest[k]? = some pp ∧
        ¬ skipPb thr hl0 frames sp pp ∧ c.pIdx = j + k ∧
        c.vIdx < pp.2.bodyVoxels.length ∧
        fTVI sp traj psize (9/20) (pp.2.bodyVoxels.getD c.vIdx r3zero) =
          some c.t ∧ 0 ≤ c.t ∧ c.t ≤ 1 := by
  intro rest
  induction rest with
  | nil => intro j best c h; exact Or.inl h
  | cons pp t ih =>
    intro j best c h
    unfold auxSimple at h
    by_cases hskip : skipPb thr hl0 frames sp pp
    · rw [if_pos hskip] at h
      rcases ih (j + 1) best c h with hb | ⟨k, qq, hget, hns, hp, hrest⟩
      · exact Or.inl hb
      · exact Or.inr ⟨k + 1, qq, by simpa using hget, hns, by omega, hrest⟩
    · rw [if_neg hskip] at h
      rcases ih (j + 1) _ c h with hb | ⟨k, qq, hget, hns, hp, hrest⟩
      · rcases scanIdx_sound sp traj psize j pp.2.bodyVoxels _ best c hb with
          hb' | ⟨hp, hv, hf, h0, h1⟩
        · exact Or.inl hb'
        · exact Or.inr ⟨0, pp, by simp, hskip, by omega, hv, hf, h0, h1⟩
      · exact Or.inr ⟨k + 1, qq, by simpa using hget, hns, by omega, hrest⟩

lemma auxSimple_min (thr : Option ℕ) (hl0 : Bool) (frames : ℕ) (psize : ℝ)
    (sp traj : R3) :
    ∀ (rest : List (ℕ × PlayerR)) (j : ℕ) (best : Option Cand) (c : Cand),
      auxSimple thr hl0 frames psize sp traj rest j best = some c →
      (∀ b, best = some b → c.t ≤ b.t) ∧
      (∀ (k : ℕ) pp (i : ℕ) (t : ℝ), rest[k]? = some pp →
        ¬ skipPb thr hl0 frames sp pp → i < pp.2.bodyVoxels.length →
        fTVI sp traj psize (9/20) (pp.2.bodyVoxels.getD i r3zero) = some t →
        0 ≤ t → t ≤ 1 → c.t ≤ t) := by
  intro rest
  induction rest with
  | nil =>
    intro j best c h
    refine ⟨fun b hb => by rw [hb] at h; injection h with hh; rw [hh], ?_⟩
    intro k pp i t hget
    simp at hget
  | cons pp t ih =>
    intro j best c h
    unfold auxSimple at h
    by_cases hskip : skipPb thr hl0 frames sp pp
    · rw [if_pos hskip] at h
      rcases ih (j + 1) best c h with ⟨ihb, ihk⟩
      refine ⟨ihb, ?_⟩
      intro k qq i tt hget hns hi hf h0 h1
      cases k with
      | zero =>
        simp only [List.getElem?_cons_zero, Option.some.injEq] at hget
        subst hget
        exact absurd hskip hns
      | succ k' =>
        simp only [List.getElem?_cons_succ] at hget
        exact ihk k' qq i tt hget hns hi hf h0 h1
    · rw [if_neg hskip] at h
      rcases ih (j + 1) _ c h with ⟨ihb, ihk⟩
      have hbest : ∀ b, best = some b → c.t ≤ b.t := by
        intro b hb
        subst hb
        cases hscan : scanIdx sp traj psize j pp.2.bodyVoxels
            pp.2.bodyVoxels.length (some b) with
        | none =>
          rcases scanIdx_none sp traj psize j pp.2.bodyVoxels _ _ hscan with
            ⟨hb', _⟩
          cases hb'
        | some b' =>
          exact le_trans (ihb b' hscan)
            ((scanIdx_min sp traj psize j pp.2.bodyVoxels _ _ b' hscan).1 b rfl)
      refine ⟨hbest, ?_⟩
      intro k qq i tt hget hns hi hf h0 h1
      cases k with
      | zero =>
        simp only [List.getElem?_cons_zero, Option.some.injEq] at hget
        subst hget
        cases hscan : scanIdx sp traj psize j pp.2.bodyVoxels
            pp.2.bodyVoxels.length best with
        | none =>
          rcases scanIdx_none sp traj psize j pp.2.bodyVoxels _ _ hscan with
            ⟨_, hno⟩
          exact absurd ⟨h0, h1⟩ (hno i hi tt hf)
        | some b' =>
          exact le_trans (ihb b' hscan)
            ((scanIdx_min sp traj psize j pp.2.bodyVoxels _ _ b' hscan).2
              i hi tt hf h0 h1)
      | succ k' =>
        simp only [List.getElem?_cons_succ] at hget
        exact ihk k' qq i tt hget hns hi hf h0 h1

lemma hPCT_some_eq (thr : Option ℕ) (hasLeft : Bool) (frames : ℕ) (psize : ℝ)
    (pos sp ep : R3) (players : List (ℕ × PlayerR)) (c : Cand)
    (hne : ¬ players.length = 0)
    (hlen : ¬ Real.sqrt ((ep.x - sp.x)^2 + (ep.y - sp.y)^2 + (ep.z - sp.z)^2) <
      1/1000)
    (hbest : (scanPlayersAux thr frames psize sp
        ⟨ep.x - sp.x, ep.y - sp.y, ep.z - sp.z⟩ players 0 (none, hasLeft)).1 =
      some c) :
    hPCT thr hasLeft frames psize pos sp ep players =
      ⟨players.set c.pIdx ((players.getD c.pIdx (0, ⟨r3zero, []⟩)).1,
          ⟨(players.getD c.pIdx (0, ⟨r3zero, []⟩)).2.centerPos,
            (players.getD c.pIdx
              (0, ⟨r3zero, []⟩)).2.bodyVoxels.eraseIdx c.vIdx⟩),
        true,
        ⟨sp.x + (ep.x - sp.x) * c.t, sp.y + (ep.y - sp.y) * c.t,
          sp.z + (ep.z - sp.z) * c.t⟩,
        (scanPlayersAux thr frames psize sp
          ⟨ep.x - sp.x, ep.y - sp.y, ep.z - sp.z⟩ players 0
          (none, hasLeft)).2⟩ := by
  simp only [hPCT]
  rw [if_neg hne, if_neg hlen, hbest]

lemma hPCT_none_eq (thr : Option ℕ) (hasLeft : Bool) (frames : ℕ) (psize : ℝ)
    (pos sp ep : R3) (players : List (ℕ × PlayerR)) :
    (hPCT thr hasLeft frames psize pos sp ep players).players = players ∨
    (scanPlayersAux thr frames psize sp
        ⟨ep.x - sp.x, ep.y - sp.y, ep.z - sp.z⟩ players 0
        (none, hasLeft)).1.isSome = true := by
  simp only [hPCT]
  by_cases hne : players.length = 0
  · rw [if_pos hne]
    exact Or.inl rfl
  · rw [if_neg hne]
    by_cases hlen : Real.sqrt ((ep.x - sp.x)^2 + (ep.y - sp.y)^2 +
        (ep.z - sp.z)^2) < 1/1000
    · rw [if_pos hlen]
      exact Or.inl rfl
    · rw [if_neg hlen]
      cases hb : (scanPlayersAux thr frames psize sp
          ⟨ep.x - sp.x, ep.y - sp.y, ep.z - sp.z⟩ players 0
          (none, hasLeft)).1 with
      | none => exact Or.inl rfl
      | some c => exact Or.inr rfl

/-- C5: under the mutual-destruction policy, when the scan finds a closest
collision, the projectile is killed, the chosen candidate is a real cell with
an in-range intersection time that is minimal over all scanned candidates,
exactly that cell is removed from its player's `bodyVoxels` (via `set` of an
`eraseIdx`), and every other player entry is untouched that tick. -/
theorem C5_mutual_destruction (thr : Option ℕ) (hasLeft : Bool) (frames : ℕ)
    (psize : ℝ) (pos sp ep : R3) (players : List (ℕ × PlayerR)) (c : Cand)
    (hnd : (players.map Prod.fst).Nodup)
    (hne : ¬ players.length = 0)
    (hlen : ¬ Real.sqrt ((ep.x - sp.x)^2 + (ep.y - sp.y)^2 + (ep.z - sp.z)^2) <
      1/1000)
    (hbest : (scanPlayersAux thr frames psize sp
        ⟨ep.x - sp.x, ep.y - sp.y, ep.z - sp.z⟩ players 0 (none, hasLeft)).1 =
      some c) :
    (hPCT thr hasLeft frames psize pos sp ep players).killed = true ∧
    (∃ pp, players[c.pIdx]? = some pp ∧
      ¬ skipPb thr hasLeft frames sp pp ∧
      c.vIdx < pp.2.bodyVoxels.length ∧
      fTVI sp ⟨ep.x - sp.x, ep.y - sp.y, ep.z - sp.z⟩ psize (9/20)
        (pp.2.bodyVoxels.getD c.vIdx r3zero) = some c.t ∧
      0 ≤ c.t ∧ c.t ≤ 1 ∧
      (hPCT thr hasLeft frames psize pos sp ep players).players =
        players.set c.pIdx
          (pp.1, ⟨pp.2.centerPos, pp.2.bodyVoxels.eraseIdx c.vIdx⟩)) ∧
    (∀ (k : ℕ) pp (i : ℕ) (t : ℝ), players[k]? = some pp →
      ¬ skipPb thr hasLeft frames sp pp → i < pp.2.bodyVoxels.length →
      fTVI sp ⟨ep.x - sp.x, ep.y - sp.y, ep.z - sp.z⟩ psize (9/20)
        (pp.2.bodyVoxels.getD i r3zero) = some t →
      0 ≤ t → t ≤ 1 → c.t ≤ t) ∧
    (∀ k : ℕ, k ≠ c.pIdx →
      (hPCT thr hasLeft frames psize pos sp ep players).players[k]? =
        players[k]?) := by
  have heq := hPCT_some_eq thr hasLeft frames psize pos sp ep players c hne
    hlen hbest
  have hsimp := scanPlayersAux_eq_simple thr frames psize sp
    ⟨ep.x - sp.x, ep.y - sp.y, ep.z - sp.z⟩ players 0 none hasLeft hnd
  rw [hsimp] at hbest
  rcases auxSimple_sound thr hasLeft frames psize sp
      ⟨ep.x - sp.x, ep.y - sp.y, ep.z - sp.z⟩ players 0 none c hbest with
    hb | ⟨k, pp, hget, hns, hp, hv, hf, h0, h1⟩
  · cases hb
  have hpk : c.pIdx = k := by omega
  have hget' : players[c.pIdx]? = some pp := by rw [hpk]; exact hget
  have hgetD : players.getD c.pIdx (0, ⟨r3zero, []⟩) = pp := by
    rw [List.getD_eq_getElem?_getD, hget']
    rfl
  refine ⟨?_, ⟨pp, hget', hns, hv, hf, h0, h1, ?_⟩, ?_, ?_⟩
  · rw [heq]
  · rw [heq]
    simp only
    rw [hgetD]
  · intro k' pp' i t hget2 hns2 hi hf2 h02 h12
    exact (auxSimple_min thr hasLeft frames psize sp
      ⟨ep.x - sp.x, ep.y - sp.y, ep.z - sp.z⟩ players 0 none c hbest).2
      k' pp' i t hget2 hns2 hi hf2 h02 h12
  · intro k' hk'
    rw [heq]
    simp only
    exact List.getElem?_set_ne (Ne.symm hk')

/-- C4 (amended): thrower immunity differs between the two collision paths.
In the discrete-position update loop of the monolithic `server.js` the
projectile skips its thrower while `dist ≤ 20` AND `framesSinceLaunch ≤ 10`;
in the trajectory-swept path of the modular server the guard is strict
(`dist < 20` AND `frames < 10`, i.e. frames 1..9 only), and while it holds
the thrower's entry is untouched.  In both paths, once
`hasLeftThrowerHitbox` is set the immunity is permanently lifted and never
re-checked. -/
theorem C4_thrower_immunity (thr : Option ℕ) (posv center sp : R3)
    (frames : ℕ) (pid : ℕ) (hasLeft : Bool) (psize : ℝ) (pos ep : R3)
    (players : List (ℕ × PlayerR)) (k : ℕ) (pp : ℕ × PlayerR)
    (xtraj : R3) (j : ℕ) (best : Option Cand) :
    (thr = some pid → distR posv center ≤ 20 → frames ≤ 10 →
      updatePathSkip thr false posv center frames pid = (true, false)) ∧
    ((players.map Prod.fst).Nodup → players[k]? = some pp →
      skipPb thr hasLeft frames sp pp →
      (hPCT thr hasLeft frames psize pos sp ep players).players[k]? =
        players[k]?) ∧
    (updatePathSkip thr true posv center frames pid = (false, true) ∨
      ¬ thr = some pid) ∧
    (scanPlayersAux thr frames psize sp xtraj players j (best, true)).2 =
      true := by
  refine ⟨?_, ?_, ?_, scanPlayersAux_latch thr frames psize sp xtraj players j best⟩
  · intro hthr hdist hfr
    unfold updatePathSkip
    rw [if_pos ⟨hthr, rfl⟩]
    rw [if_neg (by
      push_neg
      exact ⟨hdist, hfr⟩)]
  · intro hnd hget hskip
    by_cases hne : players.length = 0
    · have : players = [] := List.length_eq_zero.mp hne
      subst this
      simp at hget
    · by_cases hlen : Real.sqrt ((ep.x - sp.x)^2 + (ep.y - sp.y)^2 +
          (ep.z - sp.z)^2) < 1/1000
      · simp only [hPCT]
        rw [if_neg hne, if_pos hlen]
      · cases hbest : (scanPlayersAux thr frames psize sp
            ⟨ep.x - sp.x, ep.y - sp.y, ep.z - sp.z⟩ players 0
            (none, hasLeft)).1 with
        | none =>
          simp only [hPCT]
          rw [if_neg hne, if_neg hlen, hbest]
        | some c =>
          have heq := hPCT_some_eq thr hasLeft frames psize pos sp ep players
            c hne hlen hbest
          have hsimp := scanPlayersAux_eq_simple thr frames psize sp
            ⟨ep.x - sp.x, ep.y - sp.y, ep.z - sp.z⟩ players 0 none hasLeft hnd
          rw [hsimp] at hbest
          rcases auxSimple_sound thr hasLeft frames psize sp
              ⟨ep.x - sp.x, ep.y - sp.y, ep.z - sp.z⟩ players 0 none c
              hbest with hb | ⟨k', pp', hget', hns', hp', _⟩
          · cases hb
          have hkne : c.pIdx ≠ k := by
            intro hh
            have hk'k : k' = k := by omega
            subst hk'k
            rw [hget] at hget'
            injection hget' with hpp
            subst hpp
            exact hns' hskip
          rw [heq]
          simp only
          exact List.getElem?_set_ne hkne
  · by_cases hthr : thr = some pid
    · refine Or.inl ?_
      unfold updatePathSkip
      rw [if_neg (by simp)]
    · exact Or.inr hthr

/-! ### Concrete scenario: one player whose single body cell sits on the
projectile's travel segment from the origin to `(1,0,0)`. -/

/-- The single-cell player of the collision scenario. -/
noncomputable def pl1 : PlayerR := ⟨⟨0, 0, 0⟩, [⟨1/2, 0, 0⟩]⟩

lemma sqrt81_eval : Real.sqrt (81 : ℝ) = 9 := by
  rw [show (81 : ℝ) = 9^2 by norm_num, Real.sqrt_sq (by norm_num)]

lemma sqrt25_eval : Real.sqrt (25 : ℝ) = 5 := by
  rw [show (25 : ℝ) = 5^2 by norm_num, Real.sqrt_sq (by norm_num)]

lemma sqrt4_eval : Real.sqrt (4 : ℝ) = 2 := by
  rw [show (4 : ℝ) = 2^2 by norm_num, Real.sqrt_sq (by norm_num)]

lemma fTVI_eval :
    fTVI ⟨0, 0, 0⟩ ⟨1, 0, 0⟩ (9/20) (9/20) ⟨1/2, 0, 0⟩ = some (1/2) := by
  norm_num [fTVI, min_def, max_def, sqrt81_eval, sqrt25_eval]

lemma scanIdx_eval (j : ℕ) :
    scanIdx ⟨0, 0, 0⟩ ⟨1, 0, 0⟩ (9/20) j [⟨1/2, 0, 0⟩] 1 none =
      some ⟨1/2, j, 0⟩ := by
  show scanIdx ⟨0, 0, 0⟩ ⟨1, 0, 0⟩ (9/20) j [⟨1/2, 0, 0⟩] 0
      (consider none
        (fTVI ⟨0, 0, 0⟩ ⟨1, 0, 0⟩ (9/20) (9/20)
          (List.getD [⟨1/2, 0, 0⟩] 0 r3zero)) j 0) = some ⟨1/2, j, 0⟩
  have hget : List.getD [(⟨1/2, 0, 0⟩ : R3)] 0 r3zero = ⟨1/2, 0, 0⟩ := rfl
  rw [hget, fTVI_eval]
  show consider none (some (1/2)) j 0 = some ⟨1/2, j, 0⟩
  simp only [consider]
  rw [if_pos (by norm_num)]

lemma centerOf_pl1 : centerOf pl1 = ⟨1/2, 0, 0⟩ := by
  unfold pl1 centerOf getCenterPosition
  rw [if_neg (by simp)]
  ext <;> simp

lemma distR_half : distR ⟨0, 0, 0⟩ ⟨1/2, 0, 0⟩ = 1/2 := by
  unfold distR
  norm_num [sqrt4_eval]

lemma scanC5_eval :
    (scanPlayersAux none 0 (9/20) ⟨0, 0, 0⟩ ⟨1, 0, 0⟩ [(5, pl1)] 0
      (none, false)) = (some ⟨1/2, 0, 0⟩, false) := by
  unfold scanPlayersAux
  rw [if_neg (by simp)]
  show (scanIdx ⟨0, 0, 0⟩ ⟨1, 0, 0⟩ (9/20) 0 pl1.bodyVoxels
      pl1.bodyVoxels.length none, false) = (some ⟨1/2, 0, 0⟩, false)
  have hb : pl1.bodyVoxels = [⟨1/2, 0, 0⟩] := rfl
  rw [hb]
  show (scanIdx ⟨0, 0, 0⟩ ⟨1, 0, 0⟩ (9/20) 0 [⟨1/2, 0, 0⟩] 1 none, false) =
    (some ⟨1/2, 0, 0⟩, false)
  rw [scanIdx_eval 0]

lemma scanC4_eval :
    (scanPlayersAux (some 5) 10 (9/20) ⟨0, 0, 0⟩ ⟨1, 0, 0⟩ [(5, pl1)] 0
      (none, false)) = (some ⟨1/2, 0, 0⟩, true) := by
  unfold scanPlayersAux
  rw [if_pos ⟨rfl, rfl⟩]
  rw [if_neg (by
    intro hh
    exact absurd hh.2 (by norm_num))]
  show (scanIdx ⟨0, 0, 0⟩ ⟨1, 0, 0⟩ (9/20) 0 pl1.bodyVoxels
      pl1.bodyVoxels.length none, true) = (some ⟨1/2, 0, 0⟩, true)
  have hb : pl1.bodyVoxels = [⟨1/2, 0, 0⟩] := rfl
  rw [hb]
  show (scanIdx ⟨0, 0, 0⟩ ⟨1, 0, 0⟩ (9/20) 0 [⟨1/2, 0, 0⟩] 1 none, true) =
    (some ⟨1/2, 0, 0⟩, true)
  rw [scanIdx_eval 0]

lemma trajC_eval :
    (⟨(⟨1, 0, 0⟩ : R3).x - (⟨0, 0, 0⟩ : R3).x,
      (⟨1, 0, 0⟩ : R3).y - (⟨0, 0, 0⟩ : R3).y,
      (⟨1, 0, 0⟩ : R3).z - (⟨0, 0, 0⟩ : R3).z⟩ : R3) = ⟨1, 0, 0⟩ := by
  ext <;> norm_num

lemma lenC_eval :
    ¬ Real.sqrt (((⟨1, 0, 0⟩ : R3).x - (⟨0, 0, 0⟩ : R3).x)^2 +
      ((⟨1, 0, 0⟩ : R3).y - (⟨0, 0, 0⟩ : R3).y)^2 +
      ((⟨1, 0, 0⟩ : R3).z - (⟨0, 0, 0⟩ : R3).z)^2) < 1/1000 := by
  norm_num

/-- Counterexample to C4 as stated: a projectile with `framesSinceLaunch = 10`
(within the claimed immune window, frames 1..10) sitting 0.5 < 20 units from
its thrower's center nevertheless collides in the trajectory-swept path: the
thrower's only body cell is removed and the projectile is killed, because the
code's guard is strict (`dist < 20 && frames < 10`). -/
theorem C4_thrower_immunity_counterexample :
    (hPCT (some 5) false 10 (9/20) r3zero ⟨0, 0, 0⟩ ⟨1, 0, 0⟩
      [(5, pl1)]).killed = true ∧
    (hPCT (some 5) false 10 (9/20) r3zero ⟨0, 0, 0⟩ ⟨1, 0, 0⟩
      [(5, pl1)]).players = [(5, ⟨pl1.centerPos, []⟩)] ∧
    distR ⟨0, 0, 0⟩ (centerOf pl1) ≤ 20 ∧ (1 ≤ 10 ∧ (10 : ℕ) ≤ 10) := by
  have hbest : (scanPlayersAux (some 5) 10 (9/20) ⟨0, 0, 0⟩
      ⟨(⟨1, 0, 0⟩ : R3).x - (⟨0, 0, 0⟩ : R3).x,
        (⟨1, 0, 0⟩ : R3).y - (⟨0, 0, 0⟩ : R3).y,
        (⟨1, 0, 0⟩ : R3).z - (⟨0, 0, 0⟩ : R3).z⟩ [(5, pl1)] 0
      (none, false)).1 = some ⟨1/2, 0, 0⟩ := by
    rw [trajC_eval, scanC4_eval]
  have heq := hPCT_some_eq (some 5) false 10 (9/20) r3zero ⟨0, 0, 0⟩ ⟨1, 0, 0⟩
    [(5, pl1)] ⟨1/2, 0, 0⟩ (by simp) lenC_eval hbest
  refine ⟨by rw [heq], ?_, ?_, by norm_num, by norm_num⟩
  · rw [heq]
    simp only [List.getD, List.set]
    rfl
  · rw [centerOf_pl1, distR_half]
    norm_num

/-- Witness for C4 (amended) at the concrete scenario (frames = 9, inside the
strict immunity window of the trajectory path). -/
theorem C4_thrower_immunity_witness :
    ((some 5 = some 5) ∧ distR ⟨0, 0, 0⟩ ⟨1/2, 0, 0⟩ ≤ 20 ∧ (9 : ℕ) ≤ 10 ∧
      ([(5, pl1)].map Prod.fst).Nodup ∧
      ([(5, pl1)] : List (ℕ × PlayerR))[0]? = some (5, pl1) ∧
      skipPb (some 5) false 9 ⟨0, 0, 0⟩ (5, pl1)) ∧
    updatePathSkip (some 5) false ⟨0, 0, 0⟩ ⟨1/2, 0, 0⟩ 9 5 = (true, false) ∧
    (hPCT (some 5) false 9 (9/20) r3zero ⟨0, 0, 0⟩ ⟨1, 0, 0⟩
      [(5, pl1)]).players[0]? = ([(5, pl1)] : List (ℕ × PlayerR))[0]? ∧
    (scanPlayersAux (some 5) 9 (9/20) ⟨0, 0, 0⟩ ⟨1, 0, 0⟩ [(5, pl1)] 0
      (none, true)).2 = true := by
  have hdist : distR ⟨0, 0, 0⟩ ((⟨1/2, 0, 0⟩ : R3)) ≤ 20 := by
    rw [distR_half]; norm_num
  have hskip : skipPb (some 5) false 9 ⟨0, 0, 0⟩ (5, pl1) := by
    refine ⟨rfl, rfl, ?_, by norm_num⟩
    rw [centerOf_pl1, distR_half]
    norm_num
  have h := C4_thrower_immunity (some 5) ⟨0, 0, 0⟩ ⟨1/2, 0, 0⟩ ⟨0, 0, 0⟩ 9 5
    false (9/20) r3zero ⟨1, 0, 0⟩ [(5, pl1)] 0 (5, pl1) ⟨1, 0, 0⟩ 0 none
  refine ⟨⟨rfl, hdist, by norm_num, by simp, rfl, hskip⟩,
    h.1 rfl hdist (by norm_num), h.2.1 (by simp) rfl hskip, h.2.2.2⟩

/-- Witness for C5 at the concrete scenario: the scan finds the cell at
parametric time 1/2 and the projectile is killed. -/
theorem C5_mutual_destruction_witness :
    (([(5, pl1)].map Prod.fst).Nodup ∧
      ¬ ([(5, pl1)] : List (ℕ × PlayerR)).length = 0 ∧
      ¬ Real.sqrt (((⟨1, 0, 0⟩ : R3).x - (⟨0, 0, 0⟩ : R3).x)^2 +
        ((⟨1, 0, 0⟩ : R3).y - (⟨0, 0, 0⟩ : R3).y)^2 +
        ((⟨1, 0, 0⟩ : R3).z - (⟨0, 0, 0⟩ : R3).z)^2) < 1/1000 ∧
      (scanPlayersAux none 0 (9/20) ⟨0, 0, 0⟩
        ⟨(⟨1, 0, 0⟩ : R3).x - (⟨0, 0, 0⟩ : R3).x,
          (⟨1, 0, 0⟩ : R3).y - (⟨0, 0, 0⟩ : R3).y,
          (⟨1, 0, 0⟩ : R3).z - (⟨0, 0, 0⟩ : R3).z⟩ [(5, pl1)] 0
        (none, false)).1 = some ⟨1/2, 0, 0⟩) ∧
    (hPCT none false 0 (9/20) r3zero ⟨0, 0, 0⟩ ⟨1, 0, 0⟩
      [(5, pl1)]).killed = true := by
  have hbest : (scanPlayersAux none 0 (9/20) ⟨0, 0, 0⟩
      ⟨(⟨1, 0, 0⟩ : R3).x - (⟨0, 0, 0⟩ : R3).x,
        (⟨1, 0, 0⟩ : R3).y - (⟨0, 0, 0⟩ : R3).y,
        (⟨1, 0, 0⟩ : R3).z - (⟨0, 0, 0⟩ : R3).z⟩ [(5, pl1)] 0
      (none, false)).1 = some ⟨1/2, 0, 0⟩ := by
    rw [trajC_eval, scanC5_eval]
  exact ⟨⟨by simp, by simp, lenC_eval, hbest⟩,
    (C5_mutual_destruction none false 0 (9/20) r3zero ⟨0, 0, 0⟩ ⟨1, 0, 0⟩
      [(5, pl1)] ⟨1/2, 0, 0⟩ (by simp) (by simp) lenC_eval hbest).1⟩

/-! ## Horizontal player movement with the step-height check
(`Player.updatePhysics` in `server.js` lines 539-589, `Player.canMoveTo` in
the modular server). -/

/-- The last-known state of the four movement keys. -/
structure Keys where
  w : Bool
  s : Bool
  a : Bool
  d : Bool

/-- The camera forward vector built from yaw/pitch. -/
noncomputable def camDir (yaw pitch : ℝ) : R3 :=
  ⟨Real.cos pitch * Real.sin yaw, Real.sin pitch, Real.cos pitch * Real.cos yaw⟩

/-- The raw camera-right vector (`camDir × worldUp` with `worldUp = (0,1,0)`),
written componentwise as in the source. -/
noncomputable def camRightRaw (yaw pitch : ℝ) : R3 :=
  ⟨(camDir yaw pitch).y * 0 - (camDir yaw pitch).z * 1,
    (camDir yaw pitch).z * 0 - (camDir yaw pitch).x * 0,
    (camDir yaw pitch).x * 1 - (camDir yaw pitch).y * 0⟩

/-- The normalized camera-right vector (normalized only when nonzero). -/
noncomputable def camRight (yaw pitch : ℝ) : R3 :=
  let r := camRightRaw yaw pitch
  let rightLen := Real.sqrt (r.x^2 + r.y^2 + r.z^2)
  if 0 < rightLen then ⟨r.x / rightLen, r.y / rightLen, r.z / rightLen⟩ else r

/-- The summed movement intent vector from the four keys (only the X and Z
components are accumulated). -/
noncomputable def moveVec (keys : Keys) (yaw pitch : ℝ) : R3 :=
  ⟨(if keys.w then (camDir yaw pitch).x else 0) +
      (if keys.s then -(camDir yaw pitch).x else 0) +
      (if keys.a then -(camRight yaw pitch).x else 0) +
      (if keys.d then (camRight yaw pitch).x else 0),
    0,
    (if keys.w then (camDir yaw pitch).z else 0) +
      (if keys.s then -(camDir yaw pitch).z else 0) +
      (if keys.a then -(camRight yaw pitch).z else 0) +
      (if keys.d then (camRight yaw pitch).z else 0)⟩

/-- Length of the XZ movement intent. -/
noncomputable def moveLen (keys : Keys) (yaw pitch : ℝ) : ℝ :=
  Real.sqrt ((moveVec keys yaw pitch).x^2 + (moveVec keys yaw pitch).z^2)

/-- The tick's X displacement, `v[0]/len * MOVE_SPD * dt` with
`MOVE_SPD = 15`. -/
noncomputable def moveDX (keys : Keys) (yaw pitch dt : ℝ) : ℝ :=
  (moveVec keys yaw pitch).x / moveLen keys yaw pitch * 15 * dt

/-- The tick's Z displacement. -/
noncomputable def moveDZ (keys : Keys) (yaw pitch dt : ℝ) : ℝ :=
  (moveVec keys yaw pitch).z / moveLen keys yaw pitch * 15 * dt

/-- The horizontal-movement step of `Player.updatePhysics`: normalize the
key intent, compute the destination column, and apply the move to the center
and every body cell only when the destination is in-bounds and the cached
height difference does not exceed `STEP_HEIGHT = 6`. -/
noncomputable def horizMove (hts : Heights) (center : R3) (cells : List R3)
    (keys : Keys) (yaw pitch dt : ℝ) : R3 × List R3 :=
  if 0 < moveLen keys yaw pitch then
    let deltaX := moveDX keys yaw pitch dt
    let deltaZ := moveDZ keys yaw pitch dt
    let tx := ⌊center.x + deltaX⌋
    let tz := ⌊center.z + deltaZ⌋
    let cxi := ⌊center.x⌋
    let czi := ⌊center.z⌋
    if 0 ≤ tx ∧ tx < 128 ∧ 0 ≤ tz ∧ tz < 128 then
      if (hts (tx + tz * 128).toNat : ℤ) - (hts (cxi + czi * 128).toNat : ℤ) ≤ 6
      then
        (⟨center.x + deltaX, center.y, center.z + deltaZ⟩,
          cells.map (fun c => ⟨c.x + deltaX, c.y, c.z + deltaZ⟩))
      else (center, cells)
    else (center, cells)
  else (center, cells)

/-- C8: when the cached height of the destination column exceeds the current
column's by more than `STEP_HEIGHT = 6`, the horizontal movement step is
rejected outright: the center and every body cell keep their X and Z (the
step returns them untouched — no partial slide). -/
theorem C8_step_rejection (hts : Heights) (center : R3) (cells : List R3)
    (keys : Keys) (yaw pitch dt : ℝ)
    (htx : 0 ≤ ⌊center.x + moveDX keys yaw pitch dt⌋)
    (htx2 : ⌊center.x + moveDX keys yaw pitch dt⌋ < 128)
    (htz : 0 ≤ ⌊center.z + moveDZ keys yaw pitch dt⌋)
    (htz2 : ⌊center.z + moveDZ keys yaw pitch dt⌋ < 128)
    (hdiff : 6 <
      (hts (⌊center.x + moveDX keys yaw pitch dt⌋ +
        ⌊center.z + moveDZ keys yaw pitch dt⌋ * 128).toNat : ℤ) -
      (hts (⌊center.x⌋ + ⌊center.z⌋ * 128).toNat : ℤ)) :
    horizMove hts center cells keys yaw pitch dt = (center, cells) := by
  unfold horizMove
  by_cases hlen : 0 < moveLen keys yaw pitch
  · rw [if_pos hlen]
    simp only
    rw [if_pos ⟨htx, htx2, htz, htz2⟩]
    rw [if_neg (not_le.mpr hdiff)]
  · rw [if_neg hlen]

lemma camDir00 : camDir 0 0 = ⟨0, 0, 1⟩ := by
  unfold camDir
  ext <;> simp

lemma moveVec_eval : moveVec ⟨true, false, false, false⟩ 0 0 = ⟨0, 0, 1⟩ := by
  unfold moveVec
  rw [camDir00]
  ext <;> simp

lemma moveLen_eval : moveLen ⟨true, false, false, false⟩ 0 0 = 1 := by
  unfold moveLen
  rw [moveVec_eval]
  norm_num

lemma moveDX_eval : moveDX ⟨true, false, false, false⟩ 0 0 1 = 0 := by
  unfold moveDX
  rw [moveVec_eval, moveLen_eval]
  norm_num

lemma moveDZ_eval : moveDZ ⟨true, false, false, false⟩ 0 0 1 = 15 := by
  unfold moveDZ
  rw [moveVec_eval, moveLen_eval]
  norm_num

/-- The height map of the C8 witness: the destination column is 20 cells
high, everything else 0. -/
def htsC8 : Heights := fun i => if i = 64 + 79 * 128 then 20 else 0

/-- Witness for C8: a forward key press toward a column 20 higher leaves the
player's center and cells untouched. -/
theorem C8_step_rejection_witness :
    (0 ≤ ⌊(⟨64, 40, 64⟩ : R3).x + moveDX ⟨true, false, false, false⟩ 0 0 1⌋ ∧
      ⌊(⟨64, 40, 64⟩ : R3).x + moveDX ⟨true, false, false, false⟩ 0 0 1⌋ < 128 ∧
      0 ≤ ⌊(⟨64, 40, 64⟩ : R3).z + moveDZ ⟨true, false, false, false⟩ 0 0 1⌋ ∧
      ⌊(⟨64, 40, 64⟩ : R3).z + moveDZ ⟨true, false, false, false⟩ 0 0 1⌋ < 128 ∧
      6 < (htsC8 (⌊(⟨64, 40, 64⟩ : R3).x +
          moveDX ⟨true, false, false, false⟩ 0 0 1⌋ +
        ⌊(⟨64, 40, 64⟩ : R3).z + moveDZ ⟨true, false, false, false⟩ 0 0 1⌋ *
          128).toNat : ℤ) -
        (htsC8 (⌊(⟨64, 40, 64⟩ : R3).x⌋ + ⌊(⟨64, 40, 64⟩ : R3).z⌋ *
          128).toNat : ℤ)) ∧
    horizMove htsC8 ⟨64, 40, 64⟩ [⟨60, 30, 60⟩] ⟨true, false, false, false⟩
      0 0 1 = (⟨64, 40, 64⟩, [⟨60, 30, 60⟩]) := by
  have hfx : ⌊(⟨64, 40, 64⟩ : R3).x + moveDX ⟨true, false, false, false⟩ 0 0 1⌋ =
      (64 : ℤ) := by
    rw [moveDX_eval]
    norm_num
  have hfz : ⌊(⟨64, 40, 64⟩ : R3).z + moveDZ ⟨true, false, false, false⟩ 0 0 1⌋ =
      (79 : ℤ) := by
    rw [moveDZ_eval]
    norm_num
  have hcx : ⌊(⟨64, 40, 64⟩ : R3).x⌋ = (64 : ℤ) := by norm_num
  have hcz : ⌊(⟨64, 40, 64⟩ : R3).z⌋ = (64 : ℤ) := by norm_num
  have hdiff : 6 < (htsC8 (⌊(⟨64, 40, 64⟩ : R3).x +
        moveDX ⟨true, false, false, false⟩ 0 0 1⌋ +
      ⌊(⟨64, 40, 64⟩ : R3).z + moveDZ ⟨true, false, false, false⟩ 0 0 1⌋ *
        128).toNat : ℤ) -
      (htsC8 (⌊(⟨64, 40, 64⟩ : R3).x⌋ + ⌊(⟨64, 40, 64⟩ : R3).z⌋ *
        128).toNat : ℤ) := by
    rw [hfx, hfz, hcx]
    decide
  refine ⟨⟨by rw [hfx]; norm_num, by rw [hfx]; norm_num, by rw [hfz]; norm_num,
    by rw [hfz]; norm_num, hdiff⟩, ?_⟩
  exact C8_step_rejection htsC8 ⟨64, 40, 64⟩ [⟨60, 30, 60⟩]
    ⟨true, false, false, false⟩ 0 0 1 (by rw [hfx]; norm_num)
    (by rw [hfx]; norm_num) (by rw [hfz]; norm_num) (by rw [hfz]; norm_num)
    hdiff

end VoxelGame
